import Mathlib

/-!
# gowiki: a verification development for `wiki.go`

The program is a small wiki served over HTTP.  Pages are flat files under
`articles/`; six handlers are registered on the default `net/http` mux.

The development embeds `wiki.go` function by function.  The standard-library
calls it makes (`regexp`, `ioutil`, `net/http`, `html/template`) are modelled
up to the behaviour the handlers can observe or cause:

* `regexp`: a backtracking matcher with leftmost-first preference for the
  operators that occur in `validPath`;
* `ioutil`: a file system mapping file names to contents;
* `net/http`: a response writer whose status line is fixed by the first
  `WriteHeader`, `http.Redirect` with the parsing, cleaning and escaping of
  its target, and the `ServeMux` dispatch rules;
* `html/template`: an oracle giving, for a template and its data, the writes
  it performs and the error it returns.
-/

namespace Gowiki

/-! ## `regexp` -/

/-- The regular-expression operators that occur in `validPath`. -/
inductive Regex where
  | empty
  | char (c : Char)
  | cls (ranges : List (Char × Char))
  | cat (a b : Regex)
  | alt (a b : Regex)
  | plus (a : Regex)
  | group (i : Nat) (a : Regex)
  | bol
  | eol

/-- A matcher thread: the position reached in the text, the text still to
be read, and the text of the capture groups closed so far. -/
structure Thread where
  pos : Nat
  rest : List Char
  caps : List (Nat × List Char)

/-- Membership of a character in a class given by its ranges, as in `[a-zA-Z0-9]`. -/
def inClass (ranges : List (Char × Char)) (c : Char) : Bool :=
  ranges.any (fun r => decide (r.1 ≤ c) && decide (c ≤ r.2))

/-- One or more iterations, trying a further iteration before stopping
(greedy).  The fuel bounds the number of iterations. -/
def plusLoop (step : Thread → List Thread) : Nat → Thread → List Thread
  | 0, _ => []
  | n + 1, t =>
    (step t).flatMap (fun u => (if t.pos < u.pos then plusLoop step n u else []) ++ [u])

/-- All ways of matching a regular expression from a thread, most preferred first. -/
def Regex.run : Regex → Thread → List Thread
  | .empty, t => [t]
  | .char c, t =>
    match t.rest with
    | d :: r => if d = c then [⟨t.pos + 1, r, t.caps⟩] else []
    | [] => []
  | .cls ranges, t =>
    match t.rest with
    | d :: r => if inClass ranges d then [⟨t.pos + 1, r, t.caps⟩] else []
    | [] => []
  | .cat a b, t => (a.run t).flatMap (fun u => b.run u)
  | .alt a b, t => a.run t ++ b.run t
  | .plus a, t => plusLoop (fun u => a.run u) (t.rest.length + 1) t
  | .group i a, t =>
    (a.run t).map (fun u => ⟨u.pos, u.rest, (i, t.rest.take (u.pos - t.pos)) :: u.caps⟩)
  | .bol, t => if t.pos = 0 then [t] else []
  | .eol, t => if t.rest.isEmpty then [t] else []

/-- A literal string as a concatenation of its characters. -/
def Regex.lit : List Char → Regex
  | [] => .empty
  | c :: cs => .cat (.char c) (Regex.lit cs)

/-- Number of capture groups (`NumSubexp`). -/
def Regex.numSubexp : Regex → Nat
  | .cat a b => max a.numSubexp b.numSubexp
  | .alt a b => max a.numSubexp b.numSubexp
  | .plus a => a.numSubexp
  | .group i a => max i a.numSubexp
  | _ => 0

/-- Leftmost match: the first start position from which the expression matches,
with the most preferred thread from there. -/
def findAt (re : Regex) : Nat → List Char → Option (Nat × List Char × Thread)
  | pos, [] => ((re.run ⟨pos, [], []⟩).head?).map (fun t => (pos, [], t))
  | pos, c :: r =>
    match (re.run ⟨pos, c :: r, []⟩).head? with
    | some t => some (pos, c :: r, t)
    | none => findAt re (pos + 1) r

/-- `Regexp.FindStringSubmatch`: `none` when there is no match, otherwise the
text of the leftmost match followed by the text of each capture group (the
empty string for a group that took no part). -/
def FindStringSubmatch (re : Regex) (s : String) : Option (List String) :=
  (findAt re 0 s.data).map (fun m =>
    String.mk (m.2.1.take (m.2.2.pos - m.1)) ::
      (List.range re.numSubexp).map
        (fun i => String.mk ((m.2.2.caps.lookup (i + 1)).getD [])))

/-- The character class `[a-zA-Z0-9]`. -/
def titleClass : List (Char × Char) := [('a', 'z'), ('A', 'Z'), ('0', '9')]

/-- The route grammar of `wiki.go`: `^/(edit|save|view)/([a-zA-Z0-9]+)$`. -/
def validPath : Regex :=
  .cat .bol
    (.cat (.char '/')
      (.cat (.group 1
              (.alt (Regex.lit "edit".data)
                (.alt (Regex.lit "save".data) (Regex.lit "view".data))))
        (.cat (.char '/')
          (.cat (.group 2 (.plus (.cls titleClass))) .eol))))

/-! ## `path` -/

/-- The step of `path.Clean` for a `..` element that can backtrack: the new
length of the output, found by walking left from `w` to the last `/` at or
after `dotdot`. -/
def backtrack (out : List Char) (dotdot : Nat) : Nat → Nat
  | 0 => 0
  | w + 1 => if dotdot < w + 1 ∧ out.getD (w + 1) ' ' ≠ '/' then backtrack out dotdot w else w + 1

/-- The main loop of `path.Clean` over the unread part of the path.  The flag
tells whether the loop is copying a path element (`true`) or stands at the
start of one (`false`); `out` is the output buffer and `dotdot` the index
below which the output may not be cut. -/
def cleanLoop (rooted : Bool) : Bool → List Char → List Char → Nat → List Char
  | true, [], out, _ => out
  | true, '/' :: r, out, dotdot => cleanLoop rooted false r out dotdot
  | true, c :: r, out, dotdot => cleanLoop rooted true r (out ++ [c]) dotdot
  | false, [], out, _ => out
  | false, '/' :: r, out, dotdot => cleanLoop rooted false r out dotdot
  | false, ['.'], out, _ => out
  | false, '.' :: '/' :: r, out, dotdot => cleanLoop rooted false r out dotdot
  | false, ['.', '.'], out, dotdot =>
    if dotdot < out.length then out.take (backtrack out dotdot (out.length - 1))
    else if rooted then out
    else (if 0 < out.length then out ++ ['/'] else out) ++ ['.', '.']
  | false, '.' :: '.' :: '/' :: r, out, dotdot =>
    if dotdot < out.length then
      cleanLoop rooted false r (out.take (backtrack out dotdot (out.length - 1))) dotdot
    else if rooted then cleanLoop rooted false r out dotdot
    else
      cleanLoop rooted false r ((if 0 < out.length then out ++ ['/'] else out) ++ ['.', '.'])
        ((if 0 < out.length then out ++ ['/'] else out) ++ ['.', '.']).length
  | false, c :: r, out, dotdot =>
    cleanLoop rooted true r
      ((if (rooted && out.length != 1) || (!rooted && out.length != 0) then out ++ ['/']
        else out) ++ [c]) dotdot

/-- `path.Clean`: the shortest path name equivalent to `path` by purely
lexical processing. -/
def Clean (path : String) : String :=
  match path.data with
  | [] => "."
  | '/' :: r =>
    String.mk (cleanLoop true false r ['/'] 1)
  | c :: r =>
    match cleanLoop false false (c :: r) [] 0 with
    | [] => "."
    | out => String.mk out

/-! ## Data model and environment -/

/-- Page : Wiki Article Page -/
structure Page where
  Title : String
  Body : List UInt8
  deriving DecidableEq

/-- The conversion `[]byte(s)` of a string to its bytes. -/
def bytes (s : String) : List UInt8 := s.toUTF8.data.toList

/-- The file system seen through `ioutil`: the content of each file that can
be read; for each file name the error, if any, with which a write to it
fails; and what a failed write of some data leaves in a file that held the
given content (the old content when the file could not be opened, a part of
the data when it was truncated and the write broke off).  A file is
identified by its name as written, and a file that has been written can be
read back. -/
structure FS where
  files : String → Option (List UInt8)
  writeError : String → Option String
  failedWrite : String → List UInt8 → Option (List UInt8) → Option (List UInt8)

/-- `ioutil.WriteFile`: replaces the content of the file, or fails. -/
def WriteFile (fs : FS) (filename : String) (data : List UInt8) : FS × Option String :=
  match fs.writeError filename with
  | some e =>
    ({ fs with
        files := fun n =>
          if n = filename then fs.failedWrite filename data (fs.files filename)
          else fs.files n }, some e)
  | none => ({ fs with files := fun n => if n = filename then some data else fs.files n }, none)

/-- `ioutil.ReadFile`: the content of the file, or an error when there is
none to read. -/
def ReadFile (fs : FS) (filename : String) : Except String (List UInt8) :=
  match fs.files filename with
  | some data => .ok data
  | none => .error ("open " ++ filename ++ ": no such file or directory")

/-- The part of an `http.Request` the handlers use: `r.Method`, `r.URL.Path`
and `r.FormValue`. -/
structure Request where
  method : String
  path : String
  form : String → String

/-- One write to the response body: text, or the short HTML note that
`http.Redirect` adds to its answer to a GET request. -/
inductive Chunk where
  | text (s : String)
  | redirectNote (url : String) (code : Nat)
  deriving DecidableEq

/-- An `http.ResponseWriter`: the header map, the status code and headers
fixed by the first `WriteHeader` (none yet when `sent` is `none`), and the
body written so far. -/
structure ResponseWriter where
  header : List (String × String)
  sent : Option (Nat × List (String × String))
  body : List Chunk

/-- `Header.Set`. -/
def Header.set (h : List (String × String)) (k v : String) : List (String × String) :=
  (k, v) :: h.filter (fun e => e.1 != k)

/-- `Header.Del`. -/
def Header.del (h : List (String × String)) (k : String) : List (String × String) :=
  h.filter (fun e => e.1 != k)

/-- `ResponseWriter.WriteHeader`: only the first call has an effect. -/
def WriteHeader (w : ResponseWriter) (code : Nat) : ResponseWriter :=
  match w.sent with
  | some _ => w
  | none => { w with sent := some (code, w.header) }

/-- `ResponseWriter.Write`: sends the header with status 200 if none was sent
yet, then appends to the body. -/
def Write (w : ResponseWriter) (c : Chunk) : ResponseWriter :=
  { WriteHeader w 200 with body := (WriteHeader w 200).body ++ [c] }

/-- The status code of the response: the one of the first `WriteHeader`, or
200 when the handler returns without having sent a header. -/
def ResponseWriter.Status (w : ResponseWriter) : Nat :=
  match w.sent with
  | some x => x.1
  | none => 200

/-- The `Location` header of the response as sent. -/
def ResponseWriter.Location (w : ResponseWriter) : Option String :=
  match w.sent with
  | some x => x.2.lookup "Location"
  | none => w.header.lookup "Location"

/-- The calls a handler makes to the file system, the template engine and
the response helpers of `net/http`, in order. -/
inductive Event where
  | readFile (filename : String)
  | writeFile (filename : String) (data : List UInt8)
  | parseFiles (filename : String)
  | executeTemplate (name : String) (data : Option Page)
  | redirect (url : String) (code : Nat)
  | error (msg : String) (code : Nat)
  deriving DecidableEq

/-- The template engine.  `executeTemplate name data` gives the writes that
`templates.ExecuteTemplate` performs and the error it returns;
`parseFiles filename` gives the template parsed from a file, if parsing
succeeds, as the function from its data to its writes and error. -/
structure Env where
  executeTemplate : String → Option Page → List String × Option String
  parseFiles : String → Option (Page → List String × Option String)

/-- The state a handler runs in: the file system, the response writer of the
current request, the calls made so far, what was printed to standard output,
and whether the handler panicked. -/
structure St where
  fs : FS
  w : ResponseWriter
  trace : List Event
  stdout : List String
  panicked : Bool

/-- The state at the start of a request: a fresh response writer. -/
def St.start (fs : FS) : St :=
  ⟨fs, ⟨[], none, []⟩, [], [], false⟩

/-- `fmt.Printf` to standard output. -/
def St.print (st : St) (s : String) : St :=
  { st with stdout := st.stdout ++ [s] }

/-! ## `net/http` response helpers -/

/-- `http.Error`: replies with the error message and status code. -/
def Error (st : St) (error : String) (code : Nat) : St :=
  let h := Header.del st.w.header "Content-Length"
  let h := Header.set h "Content-Type" "text/plain; charset=utf-8"
  let h := Header.set h "X-Content-Type-Options" "nosniff"
  let w := WriteHeader { st.w with header := h } code
  let w := Write w (.text (error ++ "\n"))
  { st with w := w, trace := st.trace ++ [.error error code] }

/-- `http.NotFound`. -/
def NotFound (st : St) (_r : Request) : St :=
  Error st "404 page not found" 404

/-- `path.Split`: the path up to and including its last slash, and what follows. -/
def Split (path : String) : String × String :=
  (String.mk (path.data.reverse.dropWhile (fun c => c != '/')).reverse,
   String.mk (path.data.reverse.takeWhile (fun c => c != '/')).reverse)

/-! ## `net/url` and `http.Redirect` -/

/-- `strings.Cut` at the first occurrence of a character: the text before it
and the text after it. -/
def cut (sep : Char) (s : List Char) : List Char × List Char :=
  (s.takeWhile (fun c => c != sep), (s.dropWhile (fun c => c != sep)).drop 1)

/-- `stringContainsCTLByte`: whether the text has an ASCII control character. -/
def stringContainsCTLByte (s : List Char) : Bool :=
  s.any (fun c => decide (c.toNat < 0x20) || decide (c.toNat = 0x7f))

/-- `ishex`. -/
def ishex (c : Char) : Bool :=
  (decide ('0' ≤ c) && decide (c ≤ '9')) || (decide ('a' ≤ c) && decide (c ≤ 'f')) ||
    (decide ('A' ≤ c) && decide (c ≤ 'F'))

/-- The check that `unescape` makes of a path or a fragment: every `%` is
followed by two hexadecimal digits. -/
def validEscapes : List Char → Bool
  | [] => true
  | c :: r =>
    if c = '%' then
      match r with
      | a :: b :: r2 => ishex a && ishex b && validEscapes r2
      | _ => false
    else validEscapes r

/-- `getScheme`: the scheme and the rest of the URL, `none` for the error of
a URL that begins with a colon.  The loop runs over the unread part, `i`
being the index reached. -/
def getScheme (rawURL : List Char) : Nat → List Char → Option (List Char × List Char)
  | _, [] => some ([], rawURL)
  | i, c :: r =>
    if (decide ('a' ≤ c) && decide (c ≤ 'z')) || (decide ('A' ≤ c) && decide (c ≤ 'Z')) then
      getScheme rawURL (i + 1) r
    else if (decide ('0' ≤ c) && decide (c ≤ '9')) || c == '+' || c == '-' || c == '.' then
      if i = 0 then some ([], rawURL) else getScheme rawURL (i + 1) r
    else if c = ':' then
      if i = 0 then none else some (rawURL.take i, r)
    else some ([], rawURL)

/-- Whether `url.Parse` accepts the URL and finds neither a scheme nor a host
in it, which is when `http.Redirect` treats it as a path.  Of an authority
(after `//`) only the host is looked at: the text after its last `@`. -/
def parsesAsPath (rawURL : String) : Bool :=
  let u := (cut '#' rawURL.data).1
  let frag := (cut '#' rawURL.data).2
  if stringContainsCTLByte u then false
  else if u = ['*'] then validEscapes frag
  else
    match getScheme u 0 u with
    | none => false
    | some (scheme, rest0) =>
      let rest := (cut '?' rest0).1
      if rest.head? ≠ some '/' ∧ scheme ≠ [] then false
      else if rest.head? ≠ some '/' ∧ (cut '/' rest).1.contains ':' then false
      else if (scheme ≠ [] ∨ ¬ "///".data.isPrefixOf rest) ∧ "//".data.isPrefixOf rest then
        let authority := (rest.drop 2).takeWhile (fun c => c != '/')
        let path := (rest.drop 2).dropWhile (fun c => c != '/')
        decide (scheme = []) &&
          decide ((authority.reverse.takeWhile (fun c => c != '@')).reverse = []) &&
          validEscapes path && validEscapes frag
      else decide (scheme = []) && validEscapes rest && validEscapes frag

/-- The target of `http.Redirect` as it is sent.  A URL that parses as a path
is made absolute by putting the directory of the request path before it when
it does not begin with a slash; its part before the first `?` is then cleaned
with `path.Clean`, keeping a trailing slash.  Any other URL is left as it is. -/
def redirectURL (oldpath url : String) : String :=
  if parsesAsPath url then
    let oldpath := if oldpath = "" then "/" else oldpath
    let url := if url.data.head? = some '/' then url else (Split oldpath).1 ++ url
    let path := String.mk (url.data.takeWhile (fun c => c != '?'))
    let query := String.mk (url.data.dropWhile (fun c => c != '?'))
    let trailing := path.data.getLast? = some '/'
    let cleaned := Clean path
    (if trailing ∧ cleaned.data.getLast? ≠ some '/' then cleaned ++ "/" else cleaned) ++ query
  else url

/-- A hexadecimal digit, in lower case. -/
def hexDigit (n : Nat) : Char := "0123456789abcdef".data.getD n '0'

/-- `hexEscapeNonASCII`: every byte of a non-ASCII character is written `%xx`. -/
def hexEscapeNonASCII (s : String) : String :=
  String.mk (s.data.flatMap (fun c =>
    if c.toNat < 0x80 then [c]
    else (String.singleton c).toUTF8.data.toList.flatMap
      (fun b => ['%', hexDigit (b.toNat / 16), hexDigit (b.toNat % 16)])))

/-- `http.Redirect`: replies with a redirect to `url`, relative to the request
path.  The body of the reply to a GET request is a short note naming the
target. -/
def Redirect (st : St) (r : Request) (url : String) (code : Nat) : St :=
  let target := redirectURL r.path url
  let hadCT := (st.w.header.lookup "Content-Type").isSome
  let h := Header.set st.w.header "Location" (hexEscapeNonASCII target)
  let h :=
    if !hadCT && (r.method == "GET" || r.method == "HEAD") then
      Header.set h "Content-Type" "text/html; charset=utf-8"
    else h
  let w := WriteHeader { st.w with header := h } code
  let w := if !hadCT && r.method == "GET" then Write w (.redirectNote target code) else w
  { st with w := w, trace := st.trace ++ [.redirect url code] }

/-! ## `wiki.go` -/

/-- `(p *Page) save`. -/
def Page.save (p : Page) (st : St) : St × Option String :=
  let filename := "articles/" ++ p.Title ++ ".txt"
  let res := WriteFile st.fs filename p.Body
  ({ st with fs := res.1, trace := st.trace ++ [.writeFile filename p.Body] }, res.2)

/-- `loadPage`. -/
def loadPage (title : String) (st : St) : St × Except String Page :=
  let filename := "articles/" ++ title ++ ".txt"
  let st := { st with trace := st.trace ++ [.readFile filename] }
  match ReadFile st.fs filename with
  | .error err => (st, .error err)
  | .ok body => (st, .ok ⟨title, body⟩)

/-- `renderTemplate`. -/
def renderTemplate (env : Env) (st : St) (tmpl : String) (p : Option Page) : St :=
  let title :=
    match p with
    | some q => q.Title
    | none => "Home"
  let st := st.print (tmpl ++ ": " ++ title ++ "\n")
  let res := env.executeTemplate (tmpl ++ ".html") p
  let st :=
    { st with
      w := res.1.foldl (fun w s => Write w (.text s)) st.w
      trace := st.trace ++ [.executeTemplate (tmpl ++ ".html") p] }
  match res.2 with
  | some err => Error (st.print ("Render Failed: " ++ err ++ "\n")) err 500
  | none => st

/-- `getTitle`: the title and the error, as the two results of the Go function. -/
def getTitle (st : St) (r : Request) : St × String × Option String :=
  match FindStringSubmatch validPath r.path with
  | none =>
    let st := st.print ("Invalid Path: " ++ r.path ++ "\n")
    let st := NotFound st r
    (st, "", some "Invalid Page Title")
  | some m => (st, m.getD 2 "", none)

/-- `viewHandler`. -/
def viewHandler (env : Env) (st : St) (r : Request) : St :=
  let t := getTitle st r
  let title := t.2.1
  let l := loadPage title t.1
  match l.2 with
  | .error _ => Redirect l.1 r ("edit/" ++ title) 302
  | .ok p => renderTemplate env l.1 "view" (some p)

/-- `editHandler`. -/
def editHandler (env : Env) (st : St) (r : Request) : St :=
  let t := getTitle st r
  let title := t.2.1
  let l := loadPage title t.1
  let p : Page :=
    match l.2 with
    | .error _ => ⟨title, []⟩
    | .ok p => p
  renderTemplate env l.1 "edit" (some p)

/-- `saveHandler`. -/
def saveHandler (_env : Env) (st : St) (r : Request) : St :=
  let t := getTitle st r
  let title := t.2.1
  match t.2.2 with
  | some _ => t.1
  | none =>
    let body := r.form "body"
    let p : Page := ⟨title, bytes body⟩
    let s := p.save t.1
    let st := Redirect s.1 r ("/view/" ++ title) 302
    match s.2 with
    | some saveErr =>
      Error (st.print ("Save Failed: " ++ saveErr ++ "\n")) saveErr 500
    | none => st.print ("save: " ++ p.Title ++ "\n")

/-- `createHandler`. -/
def createHandler (_env : Env) (st : St) (r : Request) : St :=
  let body := r.form "body"
  let title := r.form "title"
  let p : Page := ⟨title, bytes body⟩
  let s := p.save st
  let st := Redirect s.1 r ("/view/" ++ title) 302
  match s.2 with
  | some saveErr =>
    Error (st.print ("Create Failed: " ++ saveErr ++ "\n")) saveErr 500
  | none => st.print ("save: " ++ p.Title ++ "\n")

/-- `newHandler`.  The parse error is dropped; when parsing failed the template
is nil and `Execute` panics. -/
def newHandler (env : Env) (st : St) (_r : Request) : St :=
  let newPage : Page := ⟨"Title", bytes "Enter text here..."⟩
  let t := env.parseFiles "templates/new.html"
  let st : St := { st with trace := st.trace ++ [Event.parseFiles "templates/new.html"] }
  let st : St :=
    { st with trace := st.trace ++ [Event.executeTemplate "new.html" (some newPage)] }
  match t with
  | none => { st with panicked := true }
  | some exec => { st with w := (exec newPage).1.foldl (fun w s => Write w (.text s)) st.w }

/-- `homeHandler`. -/
def homeHandler (env : Env) (st : St) (_r : Request) : St :=
  renderTemplate env st "home" none

/-! ## `net/http` ServeMux and `main` -/

/-- The handler functions of `wiki.go`. -/
inductive HandlerFunc where
  | viewHandler
  | editHandler
  | newHandler
  | saveHandler
  | createHandler
  | homeHandler
  deriving DecidableEq

/-- Running a handler function. -/
def HandlerFunc.ServeHTTP : HandlerFunc → Env → St → Request → St
  | .viewHandler => Gowiki.viewHandler
  | .editHandler => Gowiki.editHandler
  | .newHandler => Gowiki.newHandler
  | .saveHandler => Gowiki.saveHandler
  | .createHandler => Gowiki.createHandler
  | .homeHandler => Gowiki.homeHandler

/-- An entry of the mux: a handler and the pattern it is registered under. -/
structure MuxEntry where
  h : HandlerFunc
  pattern : String
  deriving DecidableEq

/-- A `ServeMux`: all entries (`m`), and the entries whose pattern ends in a
slash, longest pattern first (`es`). -/
structure ServeMux where
  m : List MuxEntry
  es : List MuxEntry

/-- `strings.HasPrefix`. -/
def HasPrefix (s pre : String) : Bool := pre.data.isPrefixOf s.data

/-- Insertion into `es`, before the first entry with a shorter pattern. -/
def appendSorted : List MuxEntry → MuxEntry → List MuxEntry
  | [], e => [e]
  | x :: xs, e =>
    if x.pattern.utf8ByteSize < e.pattern.utf8ByteSize then e :: x :: xs
    else x :: appendSorted xs e

/-- `ServeMux.HandleFunc`. -/
def ServeMux.HandleFunc (mux : ServeMux) (pattern : String) (h : HandlerFunc) : ServeMux :=
  let e : MuxEntry := ⟨h, pattern⟩
  { m := mux.m ++ [e]
    es := if pattern.data.getLast? = some '/' then appendSorted mux.es e else mux.es }

/-- `ServeMux.match`: an exact match first, then the longest pattern ending in
a slash that the path starts with. -/
def ServeMux.matchPath (mux : ServeMux) (path : String) : Option MuxEntry :=
  match mux.m.find? (fun e => e.pattern == path) with
  | some e => some e
  | none => mux.es.find? (fun e => HasPrefix path e.pattern)

/-- `cleanPath`: the canonical path for `p`, eliminating `.` and `..` elements. -/
def cleanPath (p : String) : String :=
  if p = "" then "/"
  else
    let p := if p.data.head? = some '/' then p else "/" ++ p
    let np := Clean p
    if p.data.getLast? = some '/' ∧ np ≠ "/" then
      if p.utf8ByteSize = np.utf8ByteSize + 1 ∧ HasPrefix p np then p else np ++ "/"
    else np

/-- `shouldRedirectRLocked`: whether `path` should be redirected to `path + "/"`,
which is so when a handler is registered for the latter and none for the former. -/
def ServeMux.shouldRedirect (mux : ServeMux) (path : String) : Bool :=
  if mux.m.any (fun e => e.pattern == path) then false
  else if path = "" then false
  else if mux.m.any (fun e => e.pattern == path ++ "/") then path.data.getLast? != some '/'
  else false

/-- What `ServeMux.Handler` selects for a request: a redirect to a canonical
path, a registered handler, or the not-found handler. -/
inductive Route where
  | redirect (url : String)
  | handler (h : HandlerFunc)
  | notFound
  deriving DecidableEq

/-- `ServeMux.handler`: the registered handler matching the path, if any. -/
def ServeMux.handler (mux : ServeMux) (path : String) : Route :=
  match mux.matchPath path with
  | some e => .handler e.h
  | none => .notFound

/-- `ServeMux.Handler`.  No pattern of `wiki.go` names a host, so the host of
the request plays no part. -/
def ServeMux.Handler (mux : ServeMux) (r : Request) : Route :=
  if r.method = "CONNECT" then
    if mux.shouldRedirect r.path then .redirect (r.path ++ "/")
    else mux.handler r.path
  else
    let path := cleanPath r.path
    if mux.shouldRedirect path then .redirect (path ++ "/")
    else if path ≠ r.path then .redirect path
    else mux.handler r.path

/-- `ServeMux.ServeHTTP`: dispatches the request to the selected handler.  The
request `*` (as in `OPTIONS *`) is answered with status 400. -/
def ServeMux.ServeHTTP (mux : ServeMux) (env : Env) (st : St) (r : Request) : St :=
  if r.path = "*" then { st with w := WriteHeader st.w 400 }
  else
    match mux.Handler r with
    | .redirect url => Redirect st r url 301
    | .handler h => h.ServeHTTP env st r
    | .notFound => NotFound st r

/-- The mux after the registrations of `main`. -/
def main : ServeMux :=
  (((((ServeMux.mk [] []).HandleFunc "/view/" .viewHandler).HandleFunc "/edit/"
    .editHandler).HandleFunc "/edit/new" .newHandler).HandleFunc "/save/"
    .saveHandler).HandleFunc "/create/" .createHandler |>.HandleFunc "/" .homeHandler

/-- Serving one request on the given files. -/
def serve (env : Env) (fs : FS) (r : Request) : St :=
  main.ServeHTTP env (St.start fs) r

/-! ## Concrete environments for the worked examples -/

/-- A template engine in which every template executes without error and
writes its own name. -/
def demoEnv : Env :=
  ⟨fun name _ => ([name], none), fun name => some (fun _ => ([name], none))⟩

/-- A file system with no files, on which every write succeeds. -/
def emptyFS : FS :=
  ⟨fun _ => none, fun _ => none, fun _ _ old => old⟩

/-- A file system with no files, on which every write fails after the file
was truncated. -/
def fullFS : FS :=
  ⟨fun _ => none, fun _ => some "no space left on device", fun _ _ _ => some []⟩

/-- A file system in which the page `Foo1` already holds the bytes of `old`,
and on which every write succeeds. -/
def staleFS : FS :=
  ⟨fun n => if n = "articles/Foo1.txt" then some [111, 108, 100] else none, fun _ => none,
    fun _ _ old => old⟩

/-- A request to `/create/` with the given `title` and `body` form fields. -/
def createRequest (title body : String) : Request :=
  ⟨"POST", "/create/", fun k => if k = "title" then title else if k = "body" then body else ""⟩

/-- A request with the given method, path and `body` form field. -/
def request (method path body : String) : Request :=
  ⟨method, path, fun k => if k = "body" then body else ""⟩

/-! ## The route grammar as the specification words it -/

/-- A character of `[A-Za-z0-9]`. -/
def IsTitleChar (c : Char) : Prop :=
  ('A' ≤ c ∧ c ≤ 'Z') ∨ ('a' ≤ c ∧ c ≤ 'z') ∨ ('0' ≤ c ∧ c ≤ '9')

instance : DecidablePred IsTitleChar := fun c => by
  unfold IsTitleChar
  infer_instance

/-- A title of the route grammar: one or more characters of `[A-Za-z0-9]`. -/
def ValidTitle (t : String) : Prop :=
  t ≠ "" ∧ ∀ c ∈ t.data, IsTitleChar c

instance : DecidablePred ValidTitle := fun t => by
  unfold ValidTitle
  infer_instance

/-- The whole path is `/op/t` for an operation among view, edit and save and
a title `t` of the route grammar. -/
def RouteGrammar (path t : String) : Prop :=
  ∃ op : String, (op = "view" ∨ op = "edit" ∨ op = "save") ∧
    path = "/" ++ op ++ "/" ++ t ∧ ValidTitle t

/-! ## The route grammar: what `validPath` matches -/

theorem run_lit (cs : List Char) (t : Thread) :
    (Regex.lit cs).run t =
      if cs.isPrefixOf t.rest then [⟨t.pos + cs.length, t.rest.drop cs.length, t.caps⟩] else [] := by
  induction cs generalizing t with
  | nil => simp [Regex.lit, Regex.run]
  | cons c cs ih =>
    obtain ⟨p, rest, caps⟩ := t
    cases rest with
    | nil => simp [Regex.lit, Regex.run]
    | cons d r =>
      by_cases h : d = c
      · subst h
        simp [Regex.lit, Regex.run, ih, Nat.add_assoc, Nat.add_comm 1]
      · have h2 : ¬ c = d := fun e => h e.symm
        simp [Regex.lit, Regex.run, h, h2]

theorem run_cls_cons (R : List (Char × Char)) (p : Nat) (c : Char) (r : List Char)
    (caps : List (Nat × List Char)) :
    (Regex.cls R).run ⟨p, c :: r, caps⟩ = if inClass R c then [⟨p + 1, r, caps⟩] else [] := by
  simp [Regex.run]

theorem run_cls_nil (R : List (Char × Char)) (p : Nat) (caps : List (Nat × List Char)) :
    (Regex.cls R).run ⟨p, [], caps⟩ = [] := by
  simp [Regex.run]

theorem plusLoop_cls_eol {β : Type} (R : List (Char × Char)) (F : Thread → β) :
    ∀ (rest : List Char) (n p : Nat) (caps : List (Nat × List Char)), rest.length < n →
      (plusLoop (fun u => (Regex.cls R).run u) n ⟨p, rest, caps⟩).flatMap
          (fun u => if u.rest.isEmpty then [F u] else []) =
        if rest ≠ [] ∧ rest.all (inClass R) then [F ⟨p + rest.length, [], caps⟩] else [] := by
  intro rest
  induction rest with
  | nil =>
    intro n p caps hn
    cases n with
    | zero => simp at hn
    | succ n => simp [plusLoop, run_cls_nil]
  | cons c r ih =>
    intro n p caps hn
    cases n with
    | zero => simp at hn
    | succ n =>
      have hr : r.length < n := by simpa using hn
      by_cases hc : inClass R c
      · simp only [plusLoop, run_cls_cons, hc, if_true, List.flatMap_cons, List.flatMap_nil,
          List.append_nil, List.flatMap_append, Nat.lt_succ_self, ih n (p + 1) caps hr]
        cases r with
        | nil => simp [hc]
        | cons d r => simp [hc, Nat.add_assoc, Nat.add_comm 1]
      · simp [plusLoop, run_cls_cons, hc]

theorem run_cat (a b : Regex) (t : Thread) :
    (Regex.cat a b).run t = (a.run t).flatMap (fun u => b.run u) := rfl

theorem run_alt (a b : Regex) (t : Thread) : (Regex.alt a b).run t = a.run t ++ b.run t := rfl

theorem run_group (i : Nat) (a : Regex) (t : Thread) :
    (Regex.group i a).run t =
      (a.run t).map (fun u => ⟨u.pos, u.rest, (i, t.rest.take (u.pos - t.pos)) :: u.caps⟩) := rfl

theorem run_plus (a : Regex) (t : Thread) :
    (Regex.plus a).run t = plusLoop (fun u => a.run u) (t.rest.length + 1) t := rfl

theorem run_eol (t : Thread) : Regex.eol.run t = if t.rest.isEmpty then [t] else [] := rfl

theorem run_bol (t : Thread) : Regex.bol.run t = if t.pos = 0 then [t] else [] := rfl

theorem run_char_cons (c d : Char) (p : Nat) (r : List Char) (caps : List (Nat × List Char)) :
    (Regex.char c).run ⟨p, d :: r, caps⟩ = if d = c then [⟨p + 1, r, caps⟩] else [] := rfl

theorem run_char_nil (c : Char) (p : Nat) (caps : List (Nat × List Char)) :
    (Regex.char c).run ⟨p, [], caps⟩ = [] := rfl

theorem run_tail (p : Nat) (rest : List Char) (caps : List (Nat × List Char)) :
    (Regex.cat (.char '/') (.cat (.group 2 (.plus (.cls titleClass))) .eol)).run ⟨p, rest, caps⟩ =
      match rest with
      | [] => []
      | c :: T =>
        if c = '/' ∧ T ≠ [] ∧ T.all (inClass titleClass) then
          [⟨p + 1 + T.length, [], (2, T) :: caps⟩]
        else [] := by
  cases rest with
  | nil => simp [run_cat, run_char_nil]
  | cons c T =>
    by_cases hc : c = '/'
    · subst hc
      have h := plusLoop_cls_eol titleClass
        (fun u => (⟨u.pos, u.rest, (2, T.take (u.pos - (p + 1))) :: u.caps⟩ : Thread))
        T (T.length + 1) (p + 1) caps (Nat.lt_succ_self _)
      simp only [run_cat, run_char_cons, run_group, run_plus, run_eol, if_true,
        List.flatMap_cons, List.flatMap_nil, List.append_nil, List.flatMap_map]
      simp only [true_and]
      refine h.trans ?_
      simp
    · simp [run_cat, run_char_cons, hc]

theorem validPath_eq :
    validPath = .cat .bol (.cat (.char '/') (.cat (.group 1
      (.alt (Regex.lit "edit".data) (.alt (Regex.lit "save".data) (Regex.lit "view".data))))
      (.cat (.char '/') (.cat (.group 2 (.plus (.cls titleClass))) .eol)))) := rfl

theorem run_validPath_pos (p : Nat) (rest : List Char) (caps : List (Nat × List Char))
    (hp : p ≠ 0) : validPath.run ⟨p, rest, caps⟩ = [] := by
  simp [validPath_eq, run_cat, run_bol, hp]

theorem run_validPath_zero (s : List Char) :
    validPath.run ⟨0, s, []⟩ =
      match s with
      | [] => []
      | c :: s1 =>
        if c = '/' then
          (if "edit".data.isPrefixOf s1 then
            (Regex.cat (.char '/') (.cat (.group 2 (.plus (.cls titleClass))) .eol)).run
              ⟨5, s1.drop 4, [(1, s1.take 4)]⟩ else []) ++
          ((if "save".data.isPrefixOf s1 then
            (Regex.cat (.char '/') (.cat (.group 2 (.plus (.cls titleClass))) .eol)).run
              ⟨5, s1.drop 4, [(1, s1.take 4)]⟩ else []) ++
          (if "view".data.isPrefixOf s1 then
            (Regex.cat (.char '/') (.cat (.group 2 (.plus (.cls titleClass))) .eol)).run
              ⟨5, s1.drop 4, [(1, s1.take 4)]⟩ else []))
        else [] := by
  cases s with
  | nil =>
    rw [validPath_eq, run_cat, run_bol]
    simp [run_cat, run_char_nil]
  | cons c s1 =>
    rw [validPath_eq, run_cat, run_bol]
    simp only [if_true, List.flatMap_cons, List.flatMap_nil, List.append_nil]
    rw [run_cat, run_char_cons]
    by_cases hc : c = '/'
    · simp only [hc, if_true, List.flatMap_cons, List.flatMap_nil, List.append_nil]
      rw [run_cat, run_group, run_alt, run_alt, run_lit, run_lit, run_lit]
      by_cases h1 : "edit".data.isPrefixOf s1 = true <;>
      by_cases h2 : "save".data.isPrefixOf s1 = true <;>
      by_cases h3 : "view".data.isPrefixOf s1 = true <;>
      simp [h1, h2, h3]
    · simp [hc]

theorem run_validPath_of (op T : List Char)
    (hop : op = "edit".data ∨ op = "save".data ∨ op = "view".data)
    (hne : T ≠ []) (hT : T.all (inClass titleClass) = true) :
    validPath.run ⟨0, '/' :: (op ++ '/' :: T), []⟩ =
      [⟨('/' :: (op ++ '/' :: T)).length, [], [(2, T), (1, op)]⟩] := by
  rw [run_validPath_zero]
  have hT2 : ∀ x ∈ T, inClass titleClass x = true := by simpa using hT
  rcases hop with rfl | rfl | rfl <;>
  · simp [run_tail, hne]
    rw [if_pos hT2]
    simp
    omega

theorem mem_run_validPath (s : List Char) (t : Thread) (h : t ∈ validPath.run ⟨0, s, []⟩) :
    ∃ op T, (op = "edit".data ∨ op = "save".data ∨ op = "view".data) ∧
      s = '/' :: (op ++ '/' :: T) ∧ T ≠ [] ∧ T.all (inClass titleClass) = true ∧
      t = ⟨s.length, [], [(2, T), (1, op)]⟩ := by
  rw [run_validPath_zero] at h
  cases s with
  | nil => simp at h
  | cons c s1 =>
    by_cases hc : c = '/'
    · subst hc
      have key : ∀ op : List Char, op.length = 4 → op.isPrefixOf s1 = true →
          t ∈ (Regex.cat (.char '/') (.cat (.group 2 (.plus (.cls titleClass))) .eol)).run
            ⟨5, s1.drop 4, [(1, s1.take 4)]⟩ →
          ∃ T, '/' :: s1 = '/' :: (op ++ '/' :: T) ∧ T ≠ [] ∧
            T.all (inClass titleClass) = true ∧
            t = ⟨('/' :: s1).length, [], [(2, T), (1, op)]⟩ := by
        intro op hlen hpre hmem
        obtain ⟨rest, rfl⟩ := List.isPrefixOf_iff_prefix.mp hpre
        have hd : List.drop 4 (op ++ rest) = rest := by
          rw [← hlen]; simp
        have ht : List.take 4 (op ++ rest) = op := by
          rw [← hlen]; simp
        rw [hd, ht, run_tail] at hmem
        cases rest with
        | nil => simp at hmem
        | cons d T =>
          dsimp only at hmem
          by_cases hcond : d = '/' ∧ T ≠ [] ∧ T.all (inClass titleClass) = true
          · rw [if_pos hcond] at hmem
            obtain ⟨rfl, hne, hall⟩ := hcond
            refine ⟨T, rfl, hne, hall, ?_⟩
            simp at hmem
            subst hmem
            simp [hlen]
            omega
          · rw [if_neg hcond] at hmem
            simp at hmem
      simp only [if_true, List.mem_append] at h
      rcases h with h | h | h
      · by_cases hp : "edit".data.isPrefixOf s1 = true
        · rw [if_pos hp] at h
          obtain ⟨T, h1, h2, h3, h4⟩ := key "edit".data rfl hp h
          exact ⟨_, T, Or.inl rfl, h1, h2, h3, h4⟩
        · rw [if_neg hp] at h; simp at h
      · by_cases hp : "save".data.isPrefixOf s1 = true
        · rw [if_pos hp] at h
          obtain ⟨T, h1, h2, h3, h4⟩ := key "save".data rfl hp h
          exact ⟨_, T, Or.inr (Or.inl rfl), h1, h2, h3, h4⟩
        · rw [if_neg hp] at h; simp at h
      · by_cases hp : "view".data.isPrefixOf s1 = true
        · rw [if_pos hp] at h
          obtain ⟨T, h1, h2, h3, h4⟩ := key "view".data rfl hp h
          exact ⟨_, T, Or.inr (Or.inr rfl), h1, h2, h3, h4⟩
        · rw [if_neg hp] at h; simp at h
    · simp [hc] at h

theorem findAt_validPath_pos (rest : List Char) :
    ∀ p : Nat, p ≠ 0 → findAt validPath p rest = none := by
  induction rest with
  | nil => intro p hp; simp [findAt, run_validPath_pos p _ _ hp]
  | cons c r ih =>
    intro p hp
    simp [findAt, run_validPath_pos p _ _ hp, ih (p + 1) (Nat.succ_ne_zero p)]

theorem findAt_validPath (s : List Char) :
    findAt validPath 0 s = ((validPath.run ⟨0, s, []⟩).head?).map (fun t => (0, s, t)) := by
  cases s with
  | nil => simp [findAt]
  | cons c r =>
    simp only [findAt]
    cases h : (validPath.run ⟨0, c :: r, []⟩).head? with
    | none => simp [findAt_validPath_pos r 1 (by decide)]
    | some t => simp

theorem inClass_titleClass (c : Char) : inClass titleClass c = true ↔ IsTitleChar c := by
  simp only [inClass, titleClass, IsTitleChar, List.any_cons, List.any_nil, Bool.or_false,
    Bool.or_eq_true, Bool.and_eq_true, decide_eq_true_eq]
  tauto

theorem all_titleClass (T : List Char) :
    T.all (inClass titleClass) = true ↔ ∀ c ∈ T, IsTitleChar c := by
  simp [List.all_eq_true, inClass_titleClass]

theorem FindStringSubmatch_validPath_of (path op t : String)
    (hop : op = "view" ∨ op = "edit" ∨ op = "save") (hpath : path = "/" ++ op ++ "/" ++ t)
    (ht : ValidTitle t) : FindStringSubmatch validPath path = some [path, op, t] := by
  have hd : path.data = '/' :: (op.data ++ '/' :: t.data) := by
    rw [hpath]; simp
  have hop2 : op.data = "edit".data ∨ op.data = "save".data ∨ op.data = "view".data := by
    rcases hop with rfl | rfl | rfl <;> simp
  have hne : t.data ≠ [] := by
    intro h; apply ht.1; exact String.ext h
  have hall := (all_titleClass t.data).mpr ht.2
  have hrun := run_validPath_of op.data t.data hop2 hne hall
  rw [← hd] at hrun
  have hns : validPath.numSubexp = 2 := by decide
  simp only [FindStringSubmatch, findAt_validPath, hrun, hns]
  simp [List.range_succ, List.lookup]
  exact String.ext (by simp)

theorem FindStringSubmatch_validPath_some (path : String) (m : List String)
    (h : FindStringSubmatch validPath path = some m) :
    ∃ op t : String, (op = "view" ∨ op = "edit" ∨ op = "save") ∧
      path = "/" ++ op ++ "/" ++ t ∧ ValidTitle t ∧ m = [path, op, t] := by
  simp only [FindStringSubmatch, findAt_validPath] at h
  cases hh : (validPath.run ⟨0, path.data, []⟩).head? with
  | none => simp [hh] at h
  | some u =>
    have hmem : u ∈ validPath.run ⟨0, path.data, []⟩ := List.mem_of_mem_head? hh
    obtain ⟨op, T, hop, hs, hne, hall, hu⟩ := mem_run_validPath _ _ hmem
    have hop2 : String.mk op = "view" ∨ String.mk op = "edit" ∨ String.mk op = "save" := by
      rcases hop with rfl | rfl | rfl <;> simp
    have hpath : path = "/" ++ String.mk op ++ "/" ++ String.mk T := by
      apply String.ext; simp [hs]
    have hvalid : ValidTitle (String.mk T) := by
      refine ⟨?_, (all_titleClass T).mp hall⟩
      intro e
      apply hne
      have := congrArg String.data e
      simpa using this
    refine ⟨String.mk op, String.mk T, hop2, hpath, hvalid, ?_⟩
    have := FindStringSubmatch_validPath_of path _ _ hop2 hpath hvalid
    simp only [FindStringSubmatch, findAt_validPath] at this
    rw [this] at h
    exact (Option.some.inj h).symm

theorem getTitle_of_grammar (st : St) (r : Request) (t : String) (h : RouteGrammar r.path t) :
    getTitle st r = (st, t, none) := by
  obtain ⟨op, hop, hpath, ht⟩ := h
  simp [getTitle, FindStringSubmatch_validPath_of r.path op t hop hpath ht]

theorem getTitle_of_not_grammar (st : St) (r : Request) (h : ¬ ∃ t, RouteGrammar r.path t) :
    getTitle st r =
      (NotFound (st.print ("Invalid Path: " ++ r.path ++ "\n")) r, "", some "Invalid Page Title") := by
  cases hm : FindStringSubmatch validPath r.path with
  | none => simp [getTitle, hm]
  | some m =>
    obtain ⟨op, t, hop, hpath, ht, _⟩ := FindStringSubmatch_validPath_some _ _ hm
    exact absurd ⟨t, op, hop, hpath, ht⟩ h

theorem getTitle_ok_grammar (st : St) (r : Request) (t : String)
    (h : (getTitle st r).2 = (t, none)) : RouteGrammar r.path t := by
  cases hm : FindStringSubmatch validPath r.path with
  | none => simp [getTitle, hm] at h
  | some m =>
    obtain ⟨op, u, hop, hpath, hu, rfl⟩ := FindStringSubmatch_validPath_some _ _ hm
    simp [getTitle, hm] at h
    subst h
    exact ⟨op, hop, hpath, hu⟩

/-- C2: `getTitle` returns title `t` without error exactly when the whole
path is `/op/t` with `op` among view, edit, save and `t` a non-empty string
over `[A-Za-z0-9]`; on every other path it returns the error (with the empty
title).  `/view/Foo1` yields `Foo1`, `/view/../etc` yields the error. -/
theorem getTitle_iff_routeGrammar (st : St) (r : Request) :
    (∀ t, (getTitle st r).2 = (t, none) ↔ RouteGrammar r.path t) ∧
    ((¬ ∃ t, RouteGrammar r.path t) ↔ (getTitle st r).2 = ("", some "Invalid Page Title")) ∧
    (getTitle st ⟨r.method, "/view/Foo1", r.form⟩).2 = ("Foo1", none) ∧
    (getTitle st ⟨r.method, "/view/../etc", r.form⟩).2 = ("", some "Invalid Page Title") := by
  refine ⟨fun t => ⟨getTitle_ok_grammar st r t, fun h => ?_⟩, ⟨fun h => ?_, fun h => ?_⟩, ?_, ?_⟩
  · rw [getTitle_of_grammar st r t h]
  · rw [getTitle_of_not_grammar st r h]
  · rintro ⟨t, ht⟩
    rw [getTitle_of_grammar st r t ht] at h
    simp at h
  · have : FindStringSubmatch validPath "/view/Foo1" = some ["/view/Foo1", "view", "Foo1"] := by
      decide
    simp [getTitle, this]
  · have : FindStringSubmatch validPath "/view/../etc" = none := by decide
    simp [getTitle, this]

/-! ## The response writer -/

theorem lookup_filter_ne (h : List (String × String)) (k k2 : String) (hk : k ≠ k2) :
    (h.filter (fun e => e.1 != k2)).lookup k = h.lookup k := by
  induction h with
  | nil => rfl
  | cons e h ih =>
    obtain ⟨a, b⟩ := e
    by_cases ha : a = k2
    · subst ha
      have hka : (k == a) = false := by simpa using hk
      rw [List.filter_cons_of_neg (by simp)]
      simp [List.lookup, hka, ih]
    · rw [List.filter_cons_of_pos (by simpa using ha)]
      by_cases hka : k = a
      · subst hka
        simp [List.lookup]
      · have hka2 : (k == a) = false := by simpa using hka
        simp [List.lookup, hka2, ih]

theorem lookup_set_same (h : List (String × String)) (k v : String) :
    (Header.set h k v).lookup k = some v := by
  simp [Header.set, List.lookup]

theorem lookup_set_ne (h : List (String × String)) (k k2 v : String) (hk : k ≠ k2) :
    (Header.set h k2 v).lookup k = h.lookup k := by
  have : (k == k2) = false := by simpa using hk
  simp only [Header.set, List.lookup, this]
  exact lookup_filter_ne h k k2 hk

theorem WriteHeader_sent_none (w : ResponseWriter) (code : Nat) (h : w.sent = none) :
    (WriteHeader w code).sent = some (code, w.header) := by
  simp [WriteHeader, h]

theorem WriteHeader_sent_some (w : ResponseWriter) (code : Nat) (x : Nat × List (String × String))
    (h : w.sent = some x) : WriteHeader w code = w := by
  simp [WriteHeader, h]

theorem Write_sent_some (w : ResponseWriter) (c : Chunk) (x : Nat × List (String × String))
    (h : w.sent = some x) : (Write w c).sent = some x := by
  simp [Write, WriteHeader, h]

theorem Write_body_some (w : ResponseWriter) (c : Chunk) (x : Nat × List (String × String))
    (h : w.sent = some x) : (Write w c).body = w.body ++ [c] := by
  simp [Write, WriteHeader, h]

/-- What `Redirect` puts in the `Location` header. -/
theorem Redirect_sent_none (st : St) (r : Request) (url : String) (code : Nat)
    (h : st.w.sent = none) :
    (Redirect st r url code).w.Status = code ∧
    (Redirect st r url code).w.Location =
      some (hexEscapeNonASCII (redirectURL r.path url)) := by
  unfold Redirect
  simp only []
  split_ifs <;>
    simp [WriteHeader, Write, h, ResponseWriter.Status, ResponseWriter.Location,
      lookup_set_same, lookup_set_ne]

theorem Redirect_sent_some (st : St) (r : Request) (url : String) (code : Nat)
    (x : Nat × List (String × String)) (h : st.w.sent = some x) :
    (Redirect st r url code).w.sent = some x := by
  unfold Redirect
  simp only []
  split_ifs <;> simp [WriteHeader, Write, h]

theorem Redirect_fs (st : St) (r : Request) (url : String) (code : Nat) :
    (Redirect st r url code).fs = st.fs := rfl

theorem Redirect_trace (st : St) (r : Request) (url : String) (code : Nat) :
    (Redirect st r url code).trace = st.trace ++ [.redirect url code] := rfl

theorem Redirect_isSome (st : St) (r : Request) (url : String) (code : Nat) :
    ∃ x, (Redirect st r url code).w.sent = some x ∧
      (st.w.sent = none → x.1 = code) ∧ (∀ y, st.w.sent = some y → x = y) := by
  cases h : st.w.sent with
  | none =>
    unfold Redirect
    simp only []
    split_ifs <;> simp [WriteHeader, Write, h]
  | some y => exact ⟨y, Redirect_sent_some st r url code y h, by simp, by simp⟩

theorem Error_sent_some (st : St) (e : String) (code : Nat) (x : Nat × List (String × String))
    (h : st.w.sent = some x) : (Error st e code).w.sent = some x := by
  simp [Error, WriteHeader, Write, h]

theorem Error_body_some (st : St) (e : String) (code : Nat) (x : Nat × List (String × String))
    (h : st.w.sent = some x) : (Error st e code).w.body = st.w.body ++ [.text (e ++ "\n")] := by
  simp [Error, WriteHeader, Write, h]

theorem Error_sent_none (st : St) (e : String) (code : Nat) (h : st.w.sent = none) :
    (Error st e code).w.Status = code ∧
      (Error st e code).w.body = st.w.body ++ [.text (e ++ "\n")] := by
  simp [Error, WriteHeader, Write, h, ResponseWriter.Status]

theorem Error_trace (st : St) (e : String) (code : Nat) :
    (Error st e code).trace = st.trace ++ [.error e code] := rfl

theorem Error_fs (st : St) (e : String) (code : Nat) : (Error st e code).fs = st.fs := rfl


theorem foldl_Write (l : List String) :
    ∀ w : ResponseWriter,
      (l.foldl (fun w s => Write w (.text s)) w).body = w.body ++ l.map Chunk.text ∧
      (l.foldl (fun w s => Write w (.text s)) w).header = w.header ∧
      (w.sent = none → (l.foldl (fun w s => Write w (.text s)) w).sent =
        if l = [] then none else some (200, w.header)) ∧
      (∀ x, w.sent = some x → (l.foldl (fun w s => Write w (.text s)) w).sent = some x) := by
  induction l with
  | nil => intro w; simp
  | cons s l ih =>
    intro w
    obtain ⟨h1, h2, _, h4⟩ := ih (Write w (.text s))
    simp only [List.foldl_cons]
    refine ⟨?_, ?_, ?_, ?_⟩
    · rw [h1]; simp [Write, WriteHeader]; split <;> simp
    · rw [h2]; simp [Write, WriteHeader]; split <;> simp
    · intro hn
      rw [h4 (200, w.header) (by simp [Write, WriteHeader, hn])]
      simp
    · intro x hx
      exact h4 x (Write_sent_some w _ x hx)

theorem renderTemplate_fs (env : Env) (st : St) (tmpl : String) (p : Option Page) :
    (renderTemplate env st tmpl p).fs = st.fs := by
  unfold renderTemplate
  simp only []
  split <;> rfl

theorem renderTemplate_trace (env : Env) (st : St) (tmpl : String) (p : Option Page) :
    (renderTemplate env st tmpl p).trace =
      st.trace ++ [.executeTemplate (tmpl ++ ".html") p] ++
        (match (env.executeTemplate (tmpl ++ ".html") p).2 with
          | some err => [.error err 500]
          | none => []) := by
  unfold renderTemplate
  simp only []
  split <;> simp_all [Error, St.print]

theorem renderTemplate_ok (env : Env) (st : St) (tmpl : String) (p : Option Page)
    (hok : (env.executeTemplate (tmpl ++ ".html") p).2 = none) (hw : st.w.sent = none) :
    (renderTemplate env st tmpl p).w.Status = 200 ∧
    (renderTemplate env st tmpl p).w.body =
      st.w.body ++ (env.executeTemplate (tmpl ++ ".html") p).1.map Chunk.text ∧
    (renderTemplate env st tmpl p).w.Location = st.w.header.lookup "Location" := by
  obtain ⟨h1, h2, h3, _⟩ := foldl_Write (env.executeTemplate (tmpl ++ ".html") p).1 st.w
  have h3 := h3 hw
  unfold renderTemplate
  simp only [hok, St.print]
  refine ⟨?_, h1, ?_⟩
  · simp only [ResponseWriter.Status, h3]
    split_ifs <;> rfl
  · simp only [ResponseWriter.Location, h3, h2]
    split_ifs <;> rfl

theorem renderTemplate_sent_some (env : Env) (st : St) (tmpl : String) (p : Option Page)
    (x : Nat × List (String × String)) (hw : st.w.sent = some x) :
    (renderTemplate env st tmpl p).w.sent = some x := by
  obtain ⟨_, _, _, h4⟩ := foldl_Write (env.executeTemplate (tmpl ++ ".html") p).1 st.w
  have h4 := h4 x hw
  unfold renderTemplate
  simp only []
  split
  · exact Error_sent_some _ _ _ x (by simpa [St.print] using h4)
  · exact h4

/-! ## The target of a redirect -/

theorem titleChar_toNat (c : Char) (h : IsTitleChar c) : 48 ≤ c.toNat ∧ c.toNat ≤ 122 := by
  simp only [IsTitleChar, Char.le_def, UInt32.le_def, BitVec.le_def] at h
  have e : c.toNat = c.val.toBitVec.toNat := rfl
  rw [e]
  rcases h with ⟨h1, h2⟩ | ⟨h1, h2⟩ | ⟨h1, h2⟩
  all_goals
    have a1 : ('A'.val.toBitVec.toNat = 65 ∧ 'Z'.val.toBitVec.toNat = 90 ∧
      'a'.val.toBitVec.toNat = 97 ∧ 'z'.val.toBitVec.toNat = 122 ∧
      '0'.val.toBitVec.toNat = 48 ∧ '9'.val.toBitVec.toNat = 57) := by decide
    omega

/-- The characters of a target built from grammar-valid path elements. -/
theorem plain_facts (c : Char) (h : IsTitleChar c ∨ c = '/') :
    c ≠ '#' ∧ c ≠ '?' ∧ c ≠ ':' ∧ c ≠ '%' ∧ c ≠ '.' ∧ c ≠ '*' ∧ c ≠ '+' ∧ c ≠ '-' ∧ c ≠ '@' ∧
      ¬ c.toNat < 0x20 ∧ c.toNat ≠ 0x7f ∧ c.toNat < 0x80 := by
  rcases h with h | rfl
  · have hn := titleChar_toNat c h
    refine ⟨?_, ?_, ?_, ?_, ?_, ?_, ?_, ?_, ?_, by omega, by omega, by omega⟩ <;>
    · rintro rfl
      revert h
      decide
  · decide

theorem takeWhile_ne_self (sep : Char) (l : List Char) (h : ∀ c ∈ l, c ≠ sep) :
    l.takeWhile (fun c => c != sep) = l ∧ l.dropWhile (fun c => c != sep) = [] := by
  induction l with
  | nil => simp
  | cons a l ih =>
    have ha : a ≠ sep := h a (List.mem_cons_self _ _)
    have := ih (fun c hc => h c (List.mem_cons_of_mem _ hc))
    have hb : (a != sep) = true := by simpa using ha
    simp [List.takeWhile_cons, List.dropWhile_cons, hb, this]

theorem cut_absent (sep : Char) (l : List Char) (h : ∀ c ∈ l, c ≠ sep) : cut sep l = (l, []) := by
  simp [cut, takeWhile_ne_self sep l h]

theorem stringContainsCTLByte_plain (l : List Char) (h : ∀ c ∈ l, IsTitleChar c ∨ c = '/') :
    stringContainsCTLByte l = false := by
  simp only [stringContainsCTLByte, List.any_eq_false]
  intro c hc
  have := plain_facts c (h c hc)
  simp [this.2.2.2.2.2.2.2.2.2.1, this.2.2.2.2.2.2.2.2.2.2.1]

theorem validEscapes_plain (l : List Char) (h : ∀ c ∈ l, c ≠ '%') : validEscapes l = true := by
  induction l with
  | nil => rfl
  | cons a l ih =>
    have ha : a ≠ '%' := h a (List.mem_cons_self _ _)
    have ih := ih (fun c hc => h c (List.mem_cons_of_mem _ hc))
    unfold validEscapes
    simp only [ha, if_false]
    exact ih

theorem getScheme_plain (raw : List Char) (l : List Char)
    (h : ∀ c ∈ l, IsTitleChar c ∨ c = '/') : ∀ i, getScheme raw i l = some ([], raw) := by
  induction l with
  | nil => intro i; rfl
  | cons a l ih =>
    intro i
    have ih := ih (fun c hc => h c (List.mem_cons_of_mem _ hc))
    rcases h a (List.mem_cons_self _ _) with ha | rfl
    · rcases ha with ⟨h1, h2⟩ | ⟨h1, h2⟩ | ⟨h1, h2⟩
      · simp [getScheme, h1, h2, ih]
      · simp [getScheme, h1, h2, ih]
      · by_cases hi : i = 0 <;> simp [getScheme, h1, h2, ih, hi]
    · simp [getScheme]



theorem parsesAsPath_plain (l : List Char) (h : ∀ c ∈ l, IsTitleChar c ∨ c = '/')
    (h2 : "//".data.isPrefixOf l = false) : parsesAsPath (String.mk l) = true := by
  have f := fun c hc => plain_facts c (h c hc)
  have c1 := cut_absent '#' l (fun c hc => (f c hc).1)
  have c2 := cut_absent '?' l (fun c hc => (f c hc).2.1)
  have c3 := stringContainsCTLByte_plain l h
  have c4 := getScheme_plain l l h 0
  have c5 := validEscapes_plain l (fun c hc => (f c hc).2.2.2.1)
  have c6 : l ≠ ['*'] := by
    rintro rfl
    exact (f '*' (by simp)).2.2.2.2.2.1 rfl
  have c7 : (cut '/' l).1.contains ':' = false := by
    rw [List.contains_eq_any_beq, List.any_eq_false]
    intro c hc
    have hm : c ∈ l := (List.takeWhile_sublist _).subset hc
    have := (f c hm).2.2.1
    simpa using fun e => this e.symm
  simp only [parsesAsPath, c1, c2, c3, c4, c5, c6, c7, h2]
  simp [validEscapes]

theorem hexEscapeNonASCII_ascii (s : String) (h : ∀ c ∈ s.data, c.toNat < 0x80) :
    hexEscapeNonASCII s = s := by
  apply String.ext
  simp only [hexEscapeNonASCII]
  generalize s.data = l at h
  induction l with
  | nil => rfl
  | cons a l ih =>
    have ha : a.toNat < 0x80 := h a (List.mem_cons_self _ _)
    simp only [List.flatMap_cons, ha, if_true, List.singleton_append]
    rw [ih (fun c hc => h c (List.mem_cons_of_mem _ hc))]

theorem cleanLoop_copy (rooted : Bool) (S : List Char) (hS : ∀ c ∈ S, c ≠ '/') :
    ∀ (out : List Char) (dd : Nat), cleanLoop rooted true S out dd = out ++ S := by
  induction S with
  | nil => intro out dd; simp [cleanLoop]
  | cons a S ih =>
    intro out dd
    have ha : a ≠ '/' := hS a (List.mem_cons_self _ _)
    have ih := ih (fun c hc => hS c (List.mem_cons_of_mem _ hc))
    rw [cleanLoop, ih]
    · simp
    · exact ha

theorem cleanLoop_title (T : List Char) (hne : T ≠ []) (hT : ∀ c ∈ T, IsTitleChar c)
    (out : List Char) (hout : out.length ≠ 1) (dd : Nat) :
    cleanLoop true false T out dd = out ++ '/' :: T := by
  cases T with
  | nil => exact absurd rfl hne
  | cons a S =>
    have fa := plain_facts a (Or.inl (hT a (List.mem_cons_self _ _)))
    have hS : ∀ c ∈ S, c ≠ '/' := by
      intro c hc e
      subst e
      exact absurd (hT _ (List.mem_cons_of_mem _ hc)) (by decide)
    have ha1 : a ≠ '/' := by
      intro e; subst e
      exact absurd (hT _ (List.mem_cons_self _ _)) (by decide)
    rw [cleanLoop, cleanLoop_copy true S hS]
    · simp [hout]
    all_goals
      intros
      first
        | exact ha1 (by assumption)
        | exact fa.2.2.2.2.1 (by assumption)


theorem Clean_view (T : String) (hT : ValidTitle T) : Clean ("/view/" ++ T) = "/view/" ++ T := by
  have hne : T.data ≠ [] := fun e => hT.1 (String.ext e)
  apply String.ext
  simp [Clean, cleanLoop, cleanLoop_title T.data hne hT.2]

theorem Clean_view_edit (T : String) (hT : ValidTitle T) :
    Clean ("/view/" ++ ("edit/" ++ T)) = "/view/edit/" ++ T := by
  have hne : T.data ≠ [] := fun e => hT.1 (String.ext e)
  apply String.ext
  simp [Clean, cleanLoop, cleanLoop_title T.data hne hT.2]

theorem redirectURL_absolute (oldpath url : String) (h1 : parsesAsPath url = true)
    (h2 : url.data.head? = some '/') (h3 : ∀ c ∈ url.data, c ≠ '?') (h4 : Clean url = url) :
    redirectURL oldpath url = url := by
  obtain ⟨t1, t2⟩ := takeWhile_ne_self '?' url.data h3
  have e1 : String.mk url.data = url := rfl
  simp only [redirectURL, h1, h2, if_true, t1, t2, e1, h4]
  by_cases ht : url.data.getLast? = some '/'
  · simp [ht]
  · simp [ht]

theorem redirectURL_relative (oldpath url : String) (h1 : parsesAsPath url = true)
    (h2 : url.data.head? ≠ some '/') (hne : oldpath ≠ "")
    (h3 : ∀ c ∈ ((Split oldpath).1 ++ url).data, c ≠ '?')
    (h4 : Clean ((Split oldpath).1 ++ url) = (Split oldpath).1 ++ url) :
    redirectURL oldpath url = (Split oldpath).1 ++ url := by
  obtain ⟨t1, t2⟩ := takeWhile_ne_self '?' _ h3
  have e1 : String.mk ((Split oldpath).1 ++ url).data = (Split oldpath).1 ++ url := rfl
  simp only [redirectURL, h1, h2, hne, if_true, if_false, t1, t2, e1, h4]
  generalize (Split oldpath).1 ++ url = p
  by_cases ht : p.data.getLast? = some '/'
  · simp [ht]
  · simp [ht]


theorem validTitle_no_slash (T : String) (hT : ValidTitle T) : ∀ c ∈ T.data, c ≠ '/' := by
  intro c hc e
  subst e
  exact absurd (hT.2 _ hc) (by decide)

theorem Split_dir (d T : String) (hT : ∀ c ∈ T.data, c ≠ '/')
    (hd : d.data.getLast? = some '/') : (Split (d ++ T)).1 = d := by
  obtain ⟨a, ha⟩ : ∃ a, d.data = a ++ ['/'] := by
    rcases List.eq_nil_or_concat d.data with h | ⟨a, b, h⟩
    · rw [h] at hd; simp at hd
    · rw [h] at hd
      simp at hd
      exact ⟨a, by rw [h, hd]; simp⟩
  apply String.ext
  simp only [Split, String.data_append, ha, List.reverse_append, List.reverse_cons,
    List.reverse_nil, List.nil_append, List.singleton_append]
  rw [List.dropWhile_append_of_pos (by
    intro c hc
    have := hT c (List.mem_reverse.mp hc)
    simpa using this)]
  simp [List.dropWhile]

theorem plain_append (p : String) (T : String) (hp : ∀ c ∈ p.data, IsTitleChar c ∨ c = '/')
    (hT : ValidTitle T) : ∀ c ∈ (p ++ T).data, IsTitleChar c ∨ c = '/' := by
  intro c hc
  rw [String.data_append, List.mem_append] at hc
  rcases hc with hc | hc
  · exact hp c hc
  · exact Or.inl (hT.2 c hc)

/-- The `Location` sent for the target `/view/T` of a grammar-valid title. -/
theorem location_view (oldpath T : String) (hT : ValidTitle T) :
    hexEscapeNonASCII (redirectURL oldpath ("/view/" ++ T)) = "/view/" ++ T := by
  have hp := plain_append "/view/" T (by decide) hT
  have h1 : parsesAsPath ("/view/" ++ T) = true :=
    parsesAsPath_plain ("/view/" ++ T).data hp (by simp [List.isPrefixOf])
  rw [redirectURL_absolute oldpath _ h1 (by simp) (fun c hc => (plain_facts c (hp c hc)).2.1)
    (Clean_view T hT)]
  exact hexEscapeNonASCII_ascii _ (fun c hc => (plain_facts c (hp c hc)).2.2.2.2.2.2.2.2.2.2.2)

/-- The `Location` sent for the target `edit/T` of a grammar-valid title on a
request for `/view/T`. -/
theorem location_edit (T : String) (hT : ValidTitle T) :
    hexEscapeNonASCII (redirectURL ("/view/" ++ T) ("edit/" ++ T)) = "/view/edit/" ++ T := by
  have hp := plain_append "edit/" T (by decide) hT
  have hq := plain_append "/view/edit/" T (by decide) hT
  have h1 : parsesAsPath ("edit/" ++ T) = true :=
    parsesAsPath_plain ("edit/" ++ T).data hp (by simp [List.isPrefixOf])
  have hd : (Split ("/view/" ++ T)).1 = "/view/" :=
    Split_dir "/view/" T (validTitle_no_slash T hT) (by decide)
  have hj : "/view/" ++ ("edit/" ++ T) = "/view/edit/" ++ T := String.ext (by simp)
  have hne : "/view/" ++ T ≠ "" := by
    intro e
    have := congrArg String.data e
    simp at this
  rw [redirectURL_relative _ _ h1 (by simp) hne
    (by rw [hd, hj]; exact fun c hc => (plain_facts c (hq c hc)).2.1)
    (by rw [hd]; rw [Clean_view_edit T hT, hj]), hd, hj]
  exact hexEscapeNonASCII_ascii _ (fun c hc => (plain_facts c (hq c hc)).2.2.2.2.2.2.2.2.2.2.2)

/-! ## The page store and the handlers -/

theorem routeGrammar_view (T : String) (hT : ValidTitle T) : RouteGrammar ("/view/" ++ T) T :=
  ⟨"view", Or.inl rfl, String.ext (by simp), hT⟩

theorem routeGrammar_edit (T : String) (hT : ValidTitle T) : RouteGrammar ("/edit/" ++ T) T :=
  ⟨"edit", Or.inr (Or.inl rfl), String.ext (by simp), hT⟩

theorem routeGrammar_save (T : String) (hT : ValidTitle T) : RouteGrammar ("/save/" ++ T) T :=
  ⟨"save", Or.inr (Or.inr rfl), String.ext (by simp), hT⟩

theorem start_sent (fs : FS) : (St.start fs).w.sent = none := rfl

/-- The state after a successful or failed `save` followed by the redirect,
common to `saveHandler` and `createHandler`. -/
theorem save_redirect (fs : FS) (r : Request) (title : String) (body : List UInt8) :
    (Redirect (Page.save ⟨title, body⟩ (St.start fs)).1 r ("/view/" ++ title) 302).w.Status = 302 ∧
    (Redirect (Page.save ⟨title, body⟩ (St.start fs)).1 r ("/view/" ++ title) 302).w.Location =
      some (hexEscapeNonASCII (redirectURL r.path ("/view/" ++ title))) ∧
    (Redirect (Page.save ⟨title, body⟩ (St.start fs)).1 r ("/view/" ++ title) 302).trace =
      [.writeFile ("articles/" ++ title ++ ".txt") body, .redirect ("/view/" ++ title) 302] ∧
    (Redirect (Page.save ⟨title, body⟩ (St.start fs)).1 r ("/view/" ++ title) 302).fs =
      (WriteFile fs ("articles/" ++ title ++ ".txt") body).1 := by
  have h := Redirect_sent_none (Page.save ⟨title, body⟩ (St.start fs)).1 r ("/view/" ++ title) 302 rfl
  exact ⟨h.1, h.2, rfl, rfl⟩

theorem WriteFile_ok (fs : FS) (name : String) (data : List UInt8)
    (hw : fs.writeError name = none) :
    (WriteFile fs name data).2 = none ∧ (WriteFile fs name data).1.files name = some data ∧
      (∀ n, n ≠ name → (WriteFile fs name data).1.files n = fs.files n) ∧
      (WriteFile fs name data).1.writeError = fs.writeError := by
  simp only [WriteFile, hw]
  refine ⟨by trivial, by simp, fun n hn => by simp [hn], by trivial⟩

theorem WriteFile_error (fs : FS) (name : String) (data : List UInt8) (e : String)
    (hw : fs.writeError name = some e) :
    (WriteFile fs name data).2 = some e := by
  simp only [WriteFile, hw]

theorem saveHandler_eq (env : Env) (fs : FS) (r : Request) (T : String)
    (hg : RouteGrammar r.path T) :
    saveHandler env (St.start fs) r =
      match (WriteFile fs ("articles/" ++ T ++ ".txt") (bytes (r.form "body"))).2 with
      | some saveErr =>
        Error ((Redirect (Page.save ⟨T, bytes (r.form "body")⟩ (St.start fs)).1 r
          ("/view/" ++ T) 302).print ("Save Failed: " ++ saveErr ++ "\n")) saveErr 500
      | none =>
        (Redirect (Page.save ⟨T, bytes (r.form "body")⟩ (St.start fs)).1 r
          ("/view/" ++ T) 302).print ("save: " ++ T ++ "\n") := by
  simp only [saveHandler, getTitle_of_grammar _ r T hg]
  rfl

theorem createHandler_eq (env : Env) (fs : FS) (r : Request) :
    createHandler env (St.start fs) r =
      match (WriteFile fs ("articles/" ++ r.form "title" ++ ".txt") (bytes (r.form "body"))).2 with
      | some saveErr =>
        Error ((Redirect (Page.save ⟨r.form "title", bytes (r.form "body")⟩ (St.start fs)).1 r
          ("/view/" ++ r.form "title") 302).print ("Create Failed: " ++ saveErr ++ "\n")) saveErr 500
      | none =>
        (Redirect (Page.save ⟨r.form "title", bytes (r.form "body")⟩ (St.start fs)).1 r
          ("/view/" ++ r.form "title") 302).print ("save: " ++ r.form "title" ++ "\n") := rfl

theorem viewHandler_found (env : Env) (fs : FS) (r : Request) (T : String) (b : List UInt8)
    (hg : RouteGrammar r.path T) (hf : fs.files ("articles/" ++ T ++ ".txt") = some b) :
    viewHandler env (St.start fs) r =
      renderTemplate env ⟨fs, ⟨[], none, []⟩, [.readFile ("articles/" ++ T ++ ".txt")], [], false⟩
        "view" (some ⟨T, b⟩) := by
  simp [viewHandler, getTitle_of_grammar _ r T hg, loadPage, ReadFile, St.start, hf]

theorem viewHandler_missing (env : Env) (fs : FS) (r : Request) (T : String)
    (hg : RouteGrammar r.path T) (hf : fs.files ("articles/" ++ T ++ ".txt") = none) :
    viewHandler env (St.start fs) r =
      Redirect ⟨fs, ⟨[], none, []⟩, [.readFile ("articles/" ++ T ++ ".txt")], [], false⟩ r
        ("edit/" ++ T) 302 := by
  simp [viewHandler, getTitle_of_grammar _ r T hg, loadPage, ReadFile, St.start, hf]

theorem editHandler_eq (env : Env) (fs : FS) (r : Request) (T : String)
    (hg : RouteGrammar r.path T) :
    editHandler env (St.start fs) r =
      renderTemplate env ⟨fs, ⟨[], none, []⟩, [.readFile ("articles/" ++ T ++ ".txt")], [], false⟩
        "edit" (some ⟨T, (fs.files ("articles/" ++ T ++ ".txt")).getD []⟩) := by
  cases hf : fs.files ("articles/" ++ T ++ ".txt") <;>
    simp [editHandler, getTitle_of_grammar _ r T hg, loadPage, ReadFile, St.start, hf]

/-! ## The page store round trip -/

/-- C1: for every title (so for every title over `[A-Za-z0-9]`), every body
and whatever the files held before, when `save` succeeds a following
`loadPage` of the same title, in any state with the files `save` left,
succeeds and returns the page with that title and exactly the saved body. -/
theorem save_loadPage_roundtrip (title : String) (body : List UInt8) (st st2 : St)
    (hsave : (Page.save ⟨title, body⟩ st).2 = none)
    (hfs : st2.fs = (Page.save ⟨title, body⟩ st).1.fs) :
    (loadPage title st2).2 = .ok ⟨title, body⟩ := by
  simp only [Page.save, WriteFile] at hsave hfs
  cases hw : st.fs.writeError ("articles/" ++ title ++ ".txt") with
  | some e => simp [hw] at hsave
  | none =>
    simp only [hw] at hfs
    simp [loadPage, ReadFile, hfs]

theorem save_loadPage_roundtrip_witness :
    ValidTitle "Foo1" ∧
    staleFS.files "articles/Foo1.txt" = some [111, 108, 100] ∧
    (Page.save ⟨"Foo1", [104, 105]⟩ (St.start staleFS)).2 = none ∧
    (loadPage "Foo1" (St.start (Page.save ⟨"Foo1", [104, 105]⟩ (St.start staleFS)).1.fs)).2 =
      .ok ⟨"Foo1", [104, 105]⟩ :=
  ⟨by decide, rfl, rfl,
    save_loadPage_roundtrip "Foo1" [104, 105] (St.start staleFS) _ rfl rfl⟩

/-! ## Saving and viewing -/

/-- C8: for a grammar-valid title `T`, a save request on `/save/T` whose
write succeeds leaves the file of `T` holding exactly the bytes of the form
body (and no other file changed) and answers with a 302 redirect to
`/view/T`; a following view request on `/view/T` loads that file and executes
the `view` template on the page with title `T` and that body, which is the
whole response (status 200) when the template executes without error. -/
theorem saveHandler_then_viewHandler (env : Env) (fs : FS) (r r2 : Request) (T : String)
    (hT : ValidTitle T) (hr : r.path = "/save/" ++ T) (hr2 : r2.path = "/view/" ++ T)
    (hw : fs.writeError ("articles/" ++ T ++ ".txt") = none) :
    (saveHandler env (St.start fs) r).fs.files ("articles/" ++ T ++ ".txt") =
      some (bytes (r.form "body")) ∧
    (∀ n, n ≠ "articles/" ++ T ++ ".txt" →
      (saveHandler env (St.start fs) r).fs.files n = fs.files n) ∧
    (saveHandler env (St.start fs) r).w.Status = 302 ∧
    (saveHandler env (St.start fs) r).w.Location = some ("/view/" ++ T) ∧
    (saveHandler env (St.start fs) r).trace =
      [.writeFile ("articles/" ++ T ++ ".txt") (bytes (r.form "body")),
       .redirect ("/view/" ++ T) 302] ∧
    (viewHandler env (St.start (saveHandler env (St.start fs) r).fs) r2).trace =
      [.readFile ("articles/" ++ T ++ ".txt"),
       .executeTemplate "view.html" (some ⟨T, bytes (r.form "body")⟩)] ++
        (match (env.executeTemplate "view.html" (some ⟨T, bytes (r.form "body")⟩)).2 with
          | some err => [.error err 500]
          | none => []) ∧
    ((env.executeTemplate "view.html" (some ⟨T, bytes (r.form "body")⟩)).2 = none →
      (viewHandler env (St.start (saveHandler env (St.start fs) r).fs) r2).w.Status = 200 ∧
      (viewHandler env (St.start (saveHandler env (St.start fs) r).fs) r2).w.body =
        (env.executeTemplate "view.html" (some ⟨T, bytes (r.form "body")⟩)).1.map Chunk.text) := by
  have hg : RouteGrammar r.path T := hr ▸ routeGrammar_save T hT
  have hg2 : RouteGrammar r2.path T := hr2 ▸ routeGrammar_view T hT
  obtain ⟨w1, w2, w3, _⟩ := WriteFile_ok fs _ (bytes (r.form "body")) hw
  obtain ⟨s1, s2, s3, s4⟩ := save_redirect fs r T (bytes (r.form "body"))
  have hs : saveHandler env (St.start fs) r =
      (Redirect (Page.save ⟨T, bytes (r.form "body")⟩ (St.start fs)).1 r
        ("/view/" ++ T) 302).print ("save: " ++ T ++ "\n") := by
    rw [saveHandler_eq env fs r T hg, w1]
  have hfs : (saveHandler env (St.start fs) r).fs =
      (WriteFile fs ("articles/" ++ T ++ ".txt") (bytes (r.form "body"))).1 := by
    rw [hs]; exact s4
  have hfile : (saveHandler env (St.start fs) r).fs.files ("articles/" ++ T ++ ".txt") =
      some (bytes (r.form "body")) := by rw [hfs]; exact w2
  have hv := viewHandler_found env (saveHandler env (St.start fs) r).fs r2 T _ hg2 hfile
  refine ⟨hfile, ?_, ?_, ?_, ?_, ?_, ?_⟩
  · intro n hn; rw [hfs]; exact w3 n hn
  · rw [hs]; exact s1
  · rw [hs]
    exact s2.trans (congrArg some (location_view r.path T hT))
  · rw [hs]; exact s3
  · rw [hv, renderTemplate_trace]; rfl
  · intro hok
    rw [hv]
    have := renderTemplate_ok env
      ⟨(saveHandler env (St.start fs) r).fs, ⟨[], none, []⟩,
        [.readFile ("articles/" ++ T ++ ".txt")], [], false⟩ "view"
      (some ⟨T, bytes (r.form "body")⟩) hok rfl
    exact ⟨this.1, by simpa using this.2.1⟩

theorem saveHandler_then_viewHandler_witness :
    ValidTitle "Welcome" ∧
    (request "POST" "/save/Welcome" "Hello").path = "/save/" ++ "Welcome" ∧
    (request "GET" "/view/Welcome" "").path = "/view/" ++ "Welcome" ∧
    emptyFS.writeError ("articles/" ++ "Welcome" ++ ".txt") = none ∧
    (saveHandler demoEnv (St.start emptyFS) (request "POST" "/save/Welcome" "Hello")).fs.files
      ("articles/" ++ "Welcome" ++ ".txt") = some (bytes "Hello") ∧
    (viewHandler demoEnv (St.start (saveHandler demoEnv (St.start emptyFS)
      (request "POST" "/save/Welcome" "Hello")).fs) (request "GET" "/view/Welcome" "")).trace =
      [.readFile ("articles/" ++ "Welcome" ++ ".txt"),
       .executeTemplate "view.html" (some ⟨"Welcome", bytes "Hello"⟩)] :=
  ⟨by decide, rfl, rfl, rfl,
    (saveHandler_then_viewHandler demoEnv emptyFS (request "POST" "/save/Welcome" "Hello")
      (request "GET" "/view/Welcome" "") "Welcome" (by decide) rfl rfl rfl).1,
    (saveHandler_then_viewHandler demoEnv emptyFS (request "POST" "/save/Welcome" "Hello")
      (request "GET" "/view/Welcome" "") "Welcome" (by decide) rfl rfl rfl).2.2.2.2.2.1⟩

/-! ## Creating and editing -/

/-- C7 (counterexample): with the form title `../x`, which the create handler
accepts and stores, the response is a 302 redirect whose `Location` is `/x`,
not `/view/../x`; with the title `é` it is `/view/%c3%a9`, not `/view/é`. -/
theorem createHandler_location_is_normalised :
    emptyFS.writeError ("articles/" ++ "../x" ++ ".txt") = none ∧
    (createHandler demoEnv (St.start emptyFS) (createRequest "../x" "X")).fs.files
      ("articles/" ++ "../x" ++ ".txt") = some (bytes "X") ∧
    (createHandler demoEnv (St.start emptyFS) (createRequest "../x" "X")).w.Status = 302 ∧
    (createHandler demoEnv (St.start emptyFS) (createRequest "../x" "X")).w.Location =
      some "/x" ∧
    (createHandler demoEnv (St.start emptyFS) (createRequest "../x" "X")).w.Location ≠
      some ("/view/" ++ "../x") ∧
    (createHandler demoEnv (St.start emptyFS) (createRequest "é" "X")).w.Location =
      some "/view/%c3%a9" ∧
    (createHandler demoEnv (St.start emptyFS) (createRequest "é" "X")).w.Location ≠
      some ("/view/" ++ "é") := by
  decide

/-- C7 (amended): for every form title and form body, `createHandler` builds
the page from the raw form fields and never consults the route grammar (its
first call is the write, whatever the title and the path are); when the
write succeeds the file named after the title holds exactly the body bytes
and the response has status 302 from a redirect for which the handler gives
the target `/view/<title>`.  The `Location` sent is what `http.Redirect`
makes of that target (cleaned by `path.Clean`, non-ASCII bytes escaped); it
is `/view/<title>` itself when the title is grammar-valid.  With title `Test`
and body `X` the file of `Test` holds `X`, and a following view of
`/view/Test` loads it and executes the `view` template on that page. -/
theorem createHandler_stores_and_redirects (env : Env) (fs : FS) (r : Request)
    (hw : fs.writeError ("articles/" ++ r.form "title" ++ ".txt") = none) :
    (createHandler env (St.start fs) r).trace =
      [.writeFile ("articles/" ++ r.form "title" ++ ".txt") (bytes (r.form "body")),
       .redirect ("/view/" ++ r.form "title") 302] ∧
    (createHandler env (St.start fs) r).fs.files ("articles/" ++ r.form "title" ++ ".txt") =
      some (bytes (r.form "body")) ∧
    (createHandler env (St.start fs) r).w.Status = 302 ∧
    (createHandler env (St.start fs) r).w.Location =
      some (hexEscapeNonASCII (redirectURL r.path ("/view/" ++ r.form "title"))) ∧
    (ValidTitle (r.form "title") →
      (createHandler env (St.start fs) r).w.Location = some ("/view/" ++ r.form "title")) ∧
    (r.form "title" = "Test" → r.form "body" = "X" →
      (createHandler env (St.start fs) r).fs.files "articles/Test.txt" = some (bytes "X") ∧
      (createHandler env (St.start fs) r).w.Location = some "/view/Test" ∧
      ∀ r2 : Request, r2.path = "/view/Test" →
        (viewHandler env (St.start (createHandler env (St.start fs) r).fs) r2).trace =
          [.readFile "articles/Test.txt",
           .executeTemplate "view.html" (some ⟨"Test", bytes "X"⟩)] ++
          (match (env.executeTemplate "view.html" (some ⟨"Test", bytes "X"⟩)).2 with
            | some err => [.error err 500]
            | none => [])) := by
  obtain ⟨w1, w2, _, _⟩ := WriteFile_ok fs _ (bytes (r.form "body")) hw
  obtain ⟨s1, s2, s3, s4⟩ := save_redirect fs r (r.form "title") (bytes (r.form "body"))
  have hs : createHandler env (St.start fs) r =
      (Redirect (Page.save ⟨r.form "title", bytes (r.form "body")⟩ (St.start fs)).1 r
        ("/view/" ++ r.form "title") 302).print ("save: " ++ r.form "title" ++ "\n") := by
    rw [createHandler_eq env fs r, w1]
  have hfs : (createHandler env (St.start fs) r).fs =
      (WriteFile fs ("articles/" ++ r.form "title" ++ ".txt") (bytes (r.form "body"))).1 := by
    rw [hs]; exact s4
  have hfile : (createHandler env (St.start fs) r).fs.files
      ("articles/" ++ r.form "title" ++ ".txt") = some (bytes (r.form "body")) := by
    rw [hfs]; exact w2
  have hloc : (createHandler env (St.start fs) r).w.Location =
      some (hexEscapeNonASCII (redirectURL r.path ("/view/" ++ r.form "title"))) := by
    rw [hs]; exact s2
  have hvalid : ValidTitle (r.form "title") →
      (createHandler env (St.start fs) r).w.Location = some ("/view/" ++ r.form "title") := by
    intro hT
    rw [hloc, location_view r.path _ hT]
  refine ⟨?_, hfile, ?_, hloc, hvalid, ?_⟩
  · rw [hs]; exact s3
  · rw [hs]; exact s1
  · intro ht hb
    have hl := hvalid (by rw [ht]; decide)
    rw [ht] at hl
    rw [ht, hb] at hfile
    have hfile2 : (createHandler env (St.start fs) r).fs.files ("articles/" ++ "Test" ++ ".txt") =
        some (bytes "X") := hfile
    refine ⟨hfile, hl, ?_⟩
    intro r2 hr2
    have hg2 : RouteGrammar r2.path "Test" := by
      rw [hr2]; exact routeGrammar_view "Test" (by decide)
    rw [viewHandler_found env _ r2 "Test" _ hg2 hfile2, renderTemplate_trace]
    rfl

theorem createHandler_stores_and_redirects_witness :
    emptyFS.writeError ("articles/" ++ (createRequest "Test" "X").form "title" ++ ".txt") = none ∧
    (createHandler demoEnv (St.start emptyFS) (createRequest "Test" "X")).fs.files
      ("articles/" ++ (createRequest "Test" "X").form "title" ++ ".txt") =
      some (bytes ((createRequest "Test" "X").form "body")) ∧
    (createHandler demoEnv (St.start emptyFS) (createRequest "Test" "X")).w.Status = 302 :=
  ⟨rfl,
    (createHandler_stores_and_redirects demoEnv emptyFS (createRequest "Test" "X") rfl).2.1,
    (createHandler_stores_and_redirects demoEnv emptyFS (createRequest "Test" "X") rfl).2.2.1⟩

/-- C9: for a grammar-valid title `T` with no stored page, `editHandler` on
`/edit/T` does not report the load error: after the failed read it executes
the `edit` template on the page with title `T` and empty body and does
nothing else (no redirect, no write; an error reply only for an error of the
template itself), so that when the template executes without error the
response has status 200, no `Location` and the template output as body. -/
theorem editHandler_missing_page (env : Env) (fs : FS) (r : Request) (T : String)
    (hT : ValidTitle T) (hr : r.path = "/edit/" ++ T)
    (hmiss : fs.files ("articles/" ++ T ++ ".txt") = none) :
    (loadPage T (St.start fs)).2 = .error ("open " ++ ("articles/" ++ T ++ ".txt") ++
      ": no such file or directory") ∧
    (editHandler env (St.start fs) r).trace =
      [.readFile ("articles/" ++ T ++ ".txt"),
       .executeTemplate "edit.html" (some ⟨T, []⟩)] ++
        (match (env.executeTemplate "edit.html" (some ⟨T, []⟩)).2 with
          | some err => [.error err 500]
          | none => []) ∧
    (editHandler env (St.start fs) r).fs = fs ∧
    ((env.executeTemplate "edit.html" (some ⟨T, []⟩)).2 = none →
      (editHandler env (St.start fs) r).w.Status = 200 ∧
      (editHandler env (St.start fs) r).w.Location = none ∧
      (editHandler env (St.start fs) r).w.body =
        (env.executeTemplate "edit.html" (some ⟨T, []⟩)).1.map Chunk.text) := by
  have hg : RouteGrammar r.path T := hr ▸ routeGrammar_edit T hT
  have he := editHandler_eq env fs r T hg
  rw [hmiss] at he
  simp only [Option.getD_none] at he
  refine ⟨by simp [loadPage, ReadFile, St.start, hmiss], ?_, ?_, ?_⟩
  · rw [he, renderTemplate_trace]; rfl
  · rw [he, renderTemplate_fs]
  · intro hok
    rw [he]
    have := renderTemplate_ok env
      ⟨fs, ⟨[], none, []⟩, [.readFile ("articles/" ++ T ++ ".txt")], [], false⟩ "edit"
      (some ⟨T, []⟩) hok rfl
    exact ⟨this.1, by simpa using this.2.2, by simpa using this.2.1⟩

theorem editHandler_missing_page_witness :
    ValidTitle "Foo1" ∧ (request "GET" "/edit/Foo1" "").path = "/edit/" ++ "Foo1" ∧
    emptyFS.files ("articles/" ++ "Foo1" ++ ".txt") = none ∧
    (editHandler demoEnv (St.start emptyFS) (request "GET" "/edit/Foo1" "")).trace =
      [.readFile ("articles/" ++ "Foo1" ++ ".txt"),
       .executeTemplate "edit.html" (some ⟨"Foo1", []⟩)] :=
  ⟨by decide, rfl, rfl,
    (editHandler_missing_page demoEnv emptyFS (request "GET" "/edit/Foo1" "") "Foo1"
      (by decide) rfl rfl).2.1⟩

/-! ## Where the handlers leave their contract -/

/-- C5 (what the code does): for a grammar-valid title `T` with no stored
page, `viewHandler` on `/view/T` answers with status 302 and renders no
template, but the target it gives to `http.Redirect` is the relative
`edit/T`, so that the `Location` sent is `/view/edit/T` and not the edit
path `/edit/T`. -/
theorem viewHandler_missing_page (env : Env) (fs : FS) (r : Request) (T : String)
    (hT : ValidTitle T) (hr : r.path = "/view/" ++ T)
    (hmiss : fs.files ("articles/" ++ T ++ ".txt") = none) :
    (viewHandler env (St.start fs) r).w.Status = 302 ∧
    (viewHandler env (St.start fs) r).trace =
      [.readFile ("articles/" ++ T ++ ".txt"), .redirect ("edit/" ++ T) 302] ∧
    (viewHandler env (St.start fs) r).w.Location = some ("/view/edit/" ++ T) ∧
    (viewHandler env (St.start fs) r).w.Location ≠ some ("/edit/" ++ T) := by
  have hg : RouteGrammar r.path T := hr ▸ routeGrammar_view T hT
  have hv := viewHandler_missing env fs r T hg hmiss
  have h := Redirect_sent_none
    ⟨fs, ⟨[], none, []⟩, [.readFile ("articles/" ++ T ++ ".txt")], [], false⟩ r
    ("edit/" ++ T) 302 rfl
  have hloc : (viewHandler env (St.start fs) r).w.Location = some ("/view/edit/" ++ T) := by
    rw [hv, h.2, hr, location_edit T hT]
  refine ⟨by rw [hv]; exact h.1, by rw [hv]; rfl, hloc, ?_⟩
  rw [hloc]
  intro e
  have := congrArg String.data (Option.some.inj e)
  simp at this

theorem viewHandler_missing_page_witness :
    ValidTitle "Foo1" ∧ (request "GET" "/view/Foo1" "").path = "/view/" ++ "Foo1" ∧
    emptyFS.files ("articles/" ++ "Foo1" ++ ".txt") = none ∧
    (viewHandler demoEnv (St.start emptyFS) (request "GET" "/view/Foo1" "")).w.Location =
      some ("/view/edit/" ++ "Foo1") :=
  ⟨by decide, rfl, rfl,
    (viewHandler_missing_page demoEnv emptyFS (request "GET" "/view/Foo1" "") "Foo1"
      (by decide) rfl rfl).2.2.1⟩

/-- Following the redirect of the view handler for the missing page `Foo1`:
the request for `/view/edit/Foo1` goes to the view handler again and is
answered with status 404; the edit handler is never reached. -/
theorem view_redirect_target_not_found :
    main.Handler (request "GET" "/view/edit/Foo1" "") = .handler .viewHandler ∧
    (serve demoEnv emptyFS (request "GET" "/view/edit/Foo1" "")).w.Status = 404 := by
  decide

/-- C4 (what the code does): for a save request with a grammar-valid path
whose write fails with error `e`, `saveHandler` has already issued the
redirect when it reports the error: the response has status 302 with
`Location: /view/T`, not status 500, and the error text is written to the
body of that redirect. -/
theorem saveHandler_write_error (env : Env) (fs : FS) (r : Request) (T e : String)
    (hT : ValidTitle T) (hr : r.path = "/save/" ++ T)
    (hw : fs.writeError ("articles/" ++ T ++ ".txt") = some e) :
    (saveHandler env (St.start fs) r).trace =
      [.writeFile ("articles/" ++ T ++ ".txt") (bytes (r.form "body")),
       .redirect ("/view/" ++ T) 302, .error e 500] ∧
    (saveHandler env (St.start fs) r).w.Status = 302 ∧
    (saveHandler env (St.start fs) r).w.Status ≠ 500 ∧
    (saveHandler env (St.start fs) r).w.Location = some ("/view/" ++ T) ∧
    Chunk.text (e ++ "\n") ∈ (saveHandler env (St.start fs) r).w.body := by
  have hg : RouteGrammar r.path T := hr ▸ routeGrammar_save T hT
  have hwf := WriteFile_error fs _ (bytes (r.form "body")) e hw
  obtain ⟨s1, s2, s3, _⟩ := save_redirect fs r T (bytes (r.form "body"))
  have hs := saveHandler_eq env fs r T hg
  rw [hwf] at hs
  simp only at hs
  obtain ⟨x, hx, _, _⟩ := Redirect_isSome (Page.save ⟨T, bytes (r.form "body")⟩ (St.start fs)).1 r
    ("/view/" ++ T) 302
  have hsent : (saveHandler env (St.start fs) r).w.sent = some x := by
    rw [hs]; exact Error_sent_some _ _ _ x hx
  have hst : (saveHandler env (St.start fs) r).w.Status = 302 := by
    have h1 := s1
    simp only [ResponseWriter.Status, hx] at h1
    simp only [ResponseWriter.Status, hsent]
    exact h1
  refine ⟨?_, hst, by rw [hst]; decide, ?_, ?_⟩
  · rw [hs, Error_trace]
    show (Redirect _ r ("/view/" ++ T) 302).trace ++ _ = _
    rw [s3]; rfl
  · have h2 := s2.trans (congrArg some (location_view r.path T hT))
    simp only [ResponseWriter.Location, hx] at h2
    simp only [ResponseWriter.Location, hsent]
    exact h2
  · rw [hs, Error_body_some _ e 500 x (by simpa [St.print] using hx)]
    simp

theorem saveHandler_write_error_witness :
    ValidTitle "Foo1" ∧ (request "POST" "/save/Foo1" "hi").path = "/save/" ++ "Foo1" ∧
    fullFS.writeError ("articles/" ++ "Foo1" ++ ".txt") = some "no space left on device" ∧
    (saveHandler demoEnv (St.start fullFS) (request "POST" "/save/Foo1" "hi")).w.Status = 302 :=
  ⟨by decide, rfl, rfl,
    (saveHandler_write_error demoEnv fullFS (request "POST" "/save/Foo1" "hi") "Foo1"
      "no space left on device" (by decide) rfl rfl).2.1⟩

/-! ## Dispatch -/

theorem renderTemplate_status (env : Env) (st : St) (tmpl : String) (p : Option Page)
    (hw : st.w.sent = none) :
    (renderTemplate env st tmpl p).w.Status = 200 ∨
      (renderTemplate env st tmpl p).w.Status = 500 := by
  obtain ⟨_, _, h3, _⟩ := foldl_Write (env.executeTemplate (tmpl ++ ".html") p).1 st.w
  have h3 := h3 hw
  cases hok : (env.executeTemplate (tmpl ++ ".html") p).2 with
  | none => exact Or.inl (renderTemplate_ok env st tmpl p hok hw).1
  | some err =>
    unfold renderTemplate
    simp only [hok, St.print]
    by_cases hl : (env.executeTemplate (tmpl ++ ".html") p).1 = []
    · right
      rw [if_pos hl] at h3
      generalize List.foldl (fun w s => Write w (Chunk.text s)) st.w
        (env.executeTemplate (tmpl ++ ".html") p).1 = w2 at h3 ⊢
      simp [Error, WriteHeader, Write, ResponseWriter.Status, h3]
    · left
      rw [if_neg hl] at h3
      generalize List.foldl (fun w s => Write w (Chunk.text s)) st.w
        (env.executeTemplate (tmpl ++ ".html") p).1 = w2 at h3 ⊢
      simp [Error, WriteHeader, Write, ResponseWriter.Status, h3]

/-- C10: a request for exactly `/edit/new`, whatever its method and form, is
dispatched to `newHandler` and not to `editHandler`, although `/edit/` was
registered before `/edit/new` and `new` is a title of the route grammar; and
from every state `newHandler` hands the template the same page, with title
`Title` and body `Enter text here...`, reading and writing no page file and
leaving the files as they are.  The response is the output of the parsed
template on that page, with status 200 and no redirect, and it is the same
whatever the files hold; when the template file does not parse nothing is
written and the handler panics. -/
theorem edit_new_served_by_newHandler (env : Env) (method : String) (form : String → String) :
    main.Handler ⟨method, "/edit/new", form⟩ = .handler .newHandler ∧
    main.Handler ⟨method, "/edit/new", form⟩ ≠ .handler .editHandler ∧
    main.m.map (fun e => e.pattern) =
      ["/view/", "/edit/", "/edit/new", "/save/", "/create/", "/"] ∧
    RouteGrammar "/edit/new" "new" ∧
    (∀ fs, serve env fs ⟨method, "/edit/new", form⟩ =
      newHandler env (St.start fs) ⟨method, "/edit/new", form⟩) ∧
    (∀ (st : St) (r : Request),
      (newHandler env st r).trace = st.trace ++
        [.parseFiles "templates/new.html",
         .executeTemplate "new.html" (some ⟨"Title", bytes "Enter text here..."⟩)] ∧
      (newHandler env st r).fs = st.fs) ∧
    (∀ (fs : FS) (exec : Page → List String × Option String),
      env.parseFiles "templates/new.html" = some exec →
      (serve env fs ⟨method, "/edit/new", form⟩).w.body =
        (exec ⟨"Title", bytes "Enter text here..."⟩).1.map Chunk.text ∧
      (serve env fs ⟨method, "/edit/new", form⟩).w.Status = 200 ∧
      (serve env fs ⟨method, "/edit/new", form⟩).w.Location = none ∧
      (serve env fs ⟨method, "/edit/new", form⟩).panicked = false) ∧
    (∀ fs : FS, env.parseFiles "templates/new.html" = none →
      (serve env fs ⟨method, "/edit/new", form⟩).panicked = true ∧
      (serve env fs ⟨method, "/edit/new", form⟩).w.body = []) ∧
    (∀ fs fs2 : FS,
      (serve env fs ⟨method, "/edit/new", form⟩).w =
        (serve env fs2 ⟨method, "/edit/new", form⟩).w ∧
      (serve env fs ⟨method, "/edit/new", form⟩).trace =
        (serve env fs2 ⟨method, "/edit/new", form⟩).trace) := by
  have h1 : main.shouldRedirect "/edit/new" = false := by decide
  have h2 : cleanPath "/edit/new" = "/edit/new" := by decide
  have h3 : main.handler "/edit/new" = .handler .newHandler := by decide
  have hH : main.Handler ⟨method, "/edit/new", form⟩ = .handler .newHandler := by
    by_cases hm : method = "CONNECT" <;> simp [ServeMux.Handler, hm, h1, h2, h3]
  have hserve : ∀ fs, serve env fs ⟨method, "/edit/new", form⟩ =
      newHandler env (St.start fs) ⟨method, "/edit/new", form⟩ := by
    intro fs
    have hs : ("/edit/new" : String) ≠ "*" := by decide
    simp [serve, ServeMux.ServeHTTP, hs, hH, HandlerFunc.ServeHTTP]
  refine ⟨hH, by rw [hH]; decide, by decide, routeGrammar_edit "new" (by decide), hserve,
    ?_, ?_, ?_, ?_⟩
  · intro st r
    unfold newHandler
    simp only []
    split <;> simp
  · intro fs exec hp
    obtain ⟨b1, b2, b3, _⟩ :=
      foldl_Write (exec ⟨"Title", bytes "Enter text here..."⟩).1 (St.start fs).w
    have b3 := b3 rfl
    rw [hserve]
    simp only [newHandler, hp]
    refine ⟨by simpa [St.start] using b1, ?_, ?_, rfl⟩
    · simp only [ResponseWriter.Status, b3]
      split_ifs <;> rfl
    · simp only [ResponseWriter.Location, b3, b2]
      split_ifs <;> rfl
  · intro fs hp
    rw [hserve]
    simp [newHandler, hp, St.start]
  · intro fs fs2
    rw [hserve, hserve]
    unfold newHandler
    simp only []
    split <;> exact ⟨rfl, rfl⟩

/-! ## Paths outside the route grammar -/

theorem not_grammar_of_find_none (path : String)
    (h : FindStringSubmatch validPath path = none) : ¬ ∃ t, RouteGrammar path t := by
  rintro ⟨t, op, hop, hpath, ht⟩
  rw [FindStringSubmatch_validPath_of path op t hop hpath ht] at h
  simp at h

theorem NotFound_start (fs : FS) (r : Request) (s : String) :
    (NotFound ((St.start fs).print s) r).w.sent =
      some (404, [("X-Content-Type-Options", "nosniff"),
        ("Content-Type", "text/plain; charset=utf-8")]) ∧
    (NotFound ((St.start fs).print s) r).trace = [.error "404 page not found" 404] ∧
    (NotFound ((St.start fs).print s) r).fs = fs := by
  refine ⟨?_, rfl, rfl⟩
  simp [NotFound, Error, St.start, St.print, WriteHeader, Write, Header.set, Header.del]

/-- C3 (what the code does): on a request whose path fails the route grammar
all three handlers answer with status 404, and `saveHandler` stops there;
but `viewHandler` and `editHandler` drop the error of `getTitle` and go on
with the empty title: both read the page file `articles/.txt`, then
`viewHandler` issues its redirect (or executes the `view` template when that
file exists) and `editHandler` executes the `edit` template. -/
theorem handlers_on_invalid_path (env : Env) (fs : FS) (r : Request)
    (h : ¬ ∃ t, RouteGrammar r.path t) :
    (saveHandler env (St.start fs) r).w.Status = 404 ∧
    (saveHandler env (St.start fs) r).trace = [.error "404 page not found" 404] ∧
    (viewHandler env (St.start fs) r).w.Status = 404 ∧
    (fs.files "articles/.txt" = none →
      (viewHandler env (St.start fs) r).trace =
        [.error "404 page not found" 404, .readFile "articles/.txt", .redirect "edit/" 302]) ∧
    (∀ b, fs.files "articles/.txt" = some b →
      (viewHandler env (St.start fs) r).trace =
        [.error "404 page not found" 404, .readFile "articles/.txt",
         .executeTemplate "view.html" (some ⟨"", b⟩)] ++
          (match (env.executeTemplate "view.html" (some ⟨"", b⟩)).2 with
            | some err => [.error err 500]
            | none => [])) ∧
    (editHandler env (St.start fs) r).w.Status = 404 ∧
    (editHandler env (St.start fs) r).trace =
      [.error "404 page not found" 404, .readFile "articles/.txt",
       .executeTemplate "edit.html" (some ⟨"", (fs.files "articles/.txt").getD []⟩)] ++
        (match (env.executeTemplate "edit.html"
            (some ⟨"", (fs.files "articles/.txt").getD []⟩)).2 with
          | some err => [.error err 500]
          | none => []) := by
  have hg := getTitle_of_not_grammar (St.start fs) r h
  obtain ⟨n1, n2, n3⟩ := NotFound_start fs r ("Invalid Path: " ++ r.path ++ "\n")
  have hname : "articles/" ++ "" ++ ".txt" = "articles/.txt" := by decide
  have hsave : saveHandler env (St.start fs) r =
      NotFound ((St.start fs).print ("Invalid Path: " ++ r.path ++ "\n")) r := by
    simp [saveHandler, hg]
  have hload : loadPage "" (NotFound ((St.start fs).print ("Invalid Path: " ++ r.path ++ "\n")) r) =
      (⟨fs, (NotFound ((St.start fs).print ("Invalid Path: " ++ r.path ++ "\n")) r).w,
          [.error "404 page not found" 404, .readFile "articles/.txt"],
          (NotFound ((St.start fs).print ("Invalid Path: " ++ r.path ++ "\n")) r).stdout,
          (NotFound ((St.start fs).print ("Invalid Path: " ++ r.path ++ "\n")) r).panicked⟩,
        match fs.files "articles/.txt" with
        | some body => .ok ⟨"", body⟩
        | none => .error ("open " ++ "articles/.txt" ++ ": no such file or directory")) := by
    simp only [loadPage, hname, ReadFile, n2, n3]
    cases fs.files "articles/.txt" <;> rfl
  refine ⟨?_, ?_, ?_, ?_, ?_, ?_, ?_⟩
  · rw [hsave]; simp only [ResponseWriter.Status, n1]
  · rw [hsave]; exact n2
  · simp only [viewHandler, hg, hload]
    cases fs.files "articles/.txt" with
    | none =>
      simp only []
      have hs := Redirect_sent_some
        ⟨fs, (NotFound ((St.start fs).print ("Invalid Path: " ++ r.path ++ "\n")) r).w,
          [.error "404 page not found" 404, .readFile "articles/.txt"],
          (NotFound ((St.start fs).print ("Invalid Path: " ++ r.path ++ "\n")) r).stdout,
          (NotFound ((St.start fs).print ("Invalid Path: " ++ r.path ++ "\n")) r).panicked⟩
        r ("edit/" ++ "") 302 _ n1
      simp only [ResponseWriter.Status, hs]
    | some b =>
      simp only []
      have hs := renderTemplate_sent_some env
        ⟨fs, (NotFound ((St.start fs).print ("Invalid Path: " ++ r.path ++ "\n")) r).w,
          [.error "404 page not found" 404, .readFile "articles/.txt"],
          (NotFound ((St.start fs).print ("Invalid Path: " ++ r.path ++ "\n")) r).stdout,
          (NotFound ((St.start fs).print ("Invalid Path: " ++ r.path ++ "\n")) r).panicked⟩
        "view" (some ⟨"", b⟩) _ n1
      simp only [ResponseWriter.Status, hs]
  · intro hf
    simp only [viewHandler, hg, hload, hf]
    rfl
  · intro b hf
    simp only [viewHandler, hg, hload, hf, renderTemplate_trace]
    rfl
  · simp only [editHandler, hg, hload]
    have hs := fun p => renderTemplate_sent_some env
      ⟨fs, (NotFound ((St.start fs).print ("Invalid Path: " ++ r.path ++ "\n")) r).w,
        [.error "404 page not found" 404, .readFile "articles/.txt"],
        (NotFound ((St.start fs).print ("Invalid Path: " ++ r.path ++ "\n")) r).stdout,
        (NotFound ((St.start fs).print ("Invalid Path: " ++ r.path ++ "\n")) r).panicked⟩
      "edit" p _ n1
    simp only [ResponseWriter.Status, hs]
  · simp only [editHandler, hg, hload, renderTemplate_trace]
    cases fs.files "articles/.txt" <;> rfl

theorem handlers_on_invalid_path_witness :
    (¬ ∃ t, RouteGrammar (request "GET" "/view/my-page" "").path t) ∧
    (viewHandler demoEnv (St.start emptyFS) (request "GET" "/view/my-page" "")).w.Status = 404 ∧
    (emptyFS.files "articles/.txt" = none →
      (viewHandler demoEnv (St.start emptyFS) (request "GET" "/view/my-page" "")).trace =
        [.error "404 page not found" 404, .readFile "articles/.txt",
         .redirect "edit/" 302]) :=
  ⟨not_grammar_of_find_none _ (by decide),
    (handlers_on_invalid_path demoEnv emptyFS (request "GET" "/view/my-page" "")
      (not_grammar_of_find_none _ (by decide))).2.2.1,
    (handlers_on_invalid_path demoEnv emptyFS (request "GET" "/view/my-page" "")
      (not_grammar_of_find_none _ (by decide))).2.2.2.1⟩

/-! ## The catch-all route -/

/-- C6 (counterexample): the request `GET /unknown/path` is not answered with
404: the catch-all pattern `/` hands it to `homeHandler`, which executes the
`home` template, and the response has status 200. -/
theorem unknown_path_is_served_by_home :
    main.Handler (request "GET" "/unknown/path" "") = .handler .homeHandler ∧
    (serve demoEnv emptyFS (request "GET" "/unknown/path" "")).w.Status = 200 ∧
    (serve demoEnv emptyFS (request "GET" "/unknown/path" "")).w.Status ≠ 404 ∧
    (serve demoEnv emptyFS (request "GET" "/unknown/path" "")).trace =
      [.executeTemplate "home.html" none] := by
  decide

theorem main_matchPath_home (path : String)
    (hslash : HasPrefix path "/" = true)
    (hview : HasPrefix path "/view/" = false) (hedit : HasPrefix path "/edit/" = false)
    (hsave : HasPrefix path "/save/" = false) (hcreate : HasPrefix path "/create/" = false) :
    main.handler path = .handler .homeHandler := by
  have hes : main.es = [⟨.createHandler, "/create/"⟩, ⟨.viewHandler, "/view/"⟩,
      ⟨.editHandler, "/edit/"⟩, ⟨.saveHandler, "/save/"⟩, ⟨.homeHandler, "/"⟩] := by decide
  have hm : main.m = [⟨.viewHandler, "/view/"⟩, ⟨.editHandler, "/edit/"⟩,
      ⟨.newHandler, "/edit/new"⟩, ⟨.saveHandler, "/save/"⟩, ⟨.createHandler, "/create/"⟩,
      ⟨.homeHandler, "/"⟩] := by decide
  have n1 : path ≠ "/view/" := by rintro rfl; exact absurd hview (by decide)
  have n2 : path ≠ "/edit/" := by rintro rfl; exact absurd hedit (by decide)
  have n3 : path ≠ "/edit/new" := by rintro rfl; exact absurd hedit (by decide)
  have n4 : path ≠ "/save/" := by rintro rfl; exact absurd hsave (by decide)
  have n5 : path ≠ "/create/" := by rintro rfl; exact absurd hcreate (by decide)
  simp only [ServeMux.handler, ServeMux.matchPath, hm, hes]
  by_cases h0 : path = "/"
  · subst h0; decide
  · have e : ∀ q : String, q ≠ path → (q == path) = false := by
      intro q hq; simpa using hq
    simp [List.find?, e _ (Ne.symm n1), e _ (Ne.symm n2), e _ (Ne.symm n3), e _ (Ne.symm n4),
      e _ (Ne.symm n5), e _ (Ne.symm h0), hview, hedit, hsave, hcreate, hslash]

theorem serve_redirect (env : Env) (fs : FS) (r : Request) (u : String)
    (hstar : r.path ≠ "*") (h : main.Handler r = .redirect u) :
    (serve env fs r).trace = [.redirect u 301] ∧ (serve env fs r).w.Status = 301 ∧
      (serve env fs r).fs = fs := by
  have hs : serve env fs r = Redirect (St.start fs) r u 301 := by
    simp [serve, ServeMux.ServeHTTP, hstar, h]
  rw [hs]
  exact ⟨rfl, (Redirect_sent_none (St.start fs) r u 301 rfl).1, rfl⟩

theorem serve_home (env : Env) (fs : FS) (r : Request)
    (hstar : r.path ≠ "*") (h : main.Handler r = .handler .homeHandler) :
    serve env fs r = renderTemplate env (St.start fs) "home" none := by
  simp [serve, ServeMux.ServeHTTP, hstar, h, HandlerFunc.ServeHTTP, homeHandler]

/-- C6 (amended): for every request, other than a CONNECT, whose path begins
with a slash and lies outside the subtrees `/view/`, `/edit/`, `/save/` and
`/create/` (so `/unknown/path`), the dispatcher never answers 404 and makes
no access to the files.  Either the mux answers with a 301 redirect, which
happens only for a path that is not in canonical form or that is a subtree
name without its slash; or the catch-all pattern `/` hands the request to
`homeHandler`, which executes the `home` template, with status 200 when the
template executes without error. -/
theorem unrouted_path_goes_home (env : Env) (fs : FS) (r : Request)
    (hm : r.method ≠ "CONNECT") (hslash : HasPrefix r.path "/" = true)
    (hview : HasPrefix r.path "/view/" = false) (hedit : HasPrefix r.path "/edit/" = false)
    (hsave : HasPrefix r.path "/save/" = false) (hcreate : HasPrefix r.path "/create/" = false) :
    (serve env fs r).w.Status ≠ 404 ∧
    (serve env fs r).fs = fs ∧
    (∀ e ∈ (serve env fs r).trace, (∀ n, e ≠ .readFile n) ∧ (∀ n d, e ≠ .writeFile n d)) ∧
    (((cleanPath r.path ≠ r.path ∨ main.shouldRedirect r.path = true) ∧
        ∃ u, main.Handler r = .redirect u ∧ (serve env fs r).trace = [.redirect u 301] ∧
          (serve env fs r).w.Status = 301) ∨
      (cleanPath r.path = r.path ∧ main.shouldRedirect r.path = false ∧
        main.Handler r = .handler .homeHandler ∧
        serve env fs r = homeHandler env (St.start fs) r ∧
        (serve env fs r).trace = [.executeTemplate "home.html" none] ++
          (match (env.executeTemplate "home.html" none).2 with
            | some err => [.error err 500]
            | none => []) ∧
        ((env.executeTemplate "home.html" none).2 = none →
          (serve env fs r).w.Status = 200))) := by
  have hstar : r.path ≠ "*" := by
    intro e; rw [e] at hslash; exact absurd hslash (by decide)
  have key : ((cleanPath r.path ≠ r.path ∨ main.shouldRedirect r.path = true) ∧
      ∃ u, main.Handler r = .redirect u) ∨
      (cleanPath r.path = r.path ∧ main.shouldRedirect r.path = false ∧
        main.Handler r = .handler .homeHandler) := by
    by_cases hc : cleanPath r.path = r.path
    · by_cases hr : main.shouldRedirect r.path = true
      · left
        exact ⟨Or.inr hr, r.path ++ "/", by simp [ServeMux.Handler, hm, hc, hr]⟩
      · right
        have hr2 : main.shouldRedirect r.path = false := by simpa using hr
        refine ⟨hc, hr2, ?_⟩
        simp [ServeMux.Handler, hm, hc, hr2,
          main_matchPath_home r.path hslash hview hedit hsave hcreate]
    · left
      refine ⟨Or.inl hc, ?_⟩
      by_cases hr : main.shouldRedirect (cleanPath r.path) = true
      · exact ⟨cleanPath r.path ++ "/", by simp [ServeMux.Handler, hm, hr]⟩
      · exact ⟨cleanPath r.path, by simp [ServeMux.Handler, hm, hr, hc]⟩
  rcases key with ⟨hcase, u, hu⟩ | ⟨hc, hr, hh⟩
  · obtain ⟨t1, t2, t3⟩ := serve_redirect env fs r u hstar hu
    refine ⟨by rw [t2]; decide, t3, ?_, Or.inl ⟨hcase, u, hu, t1, t2⟩⟩
    intro e he
    rw [t1] at he
    simp at he
    subst he
    exact ⟨fun n => by simp, fun n d => by simp⟩
  · have hs := serve_home env fs r hstar hh
    have htr : (serve env fs r).trace = [.executeTemplate "home.html" none] ++
        (match (env.executeTemplate "home.html" none).2 with
          | some err => [.error err 500]
          | none => []) := by
      rw [hs, renderTemplate_trace]; rfl
    have hst := renderTemplate_status env (St.start fs) "home" none rfl
    rw [← hs] at hst
    refine ⟨?_, by rw [hs, renderTemplate_fs]; rfl, ?_, Or.inr ⟨hc, hr, hh, ?_, htr, ?_⟩⟩
    · rcases hst with h | h <;> rw [h] <;> decide
    · intro e he
      rw [htr] at he
      cases hx : (env.executeTemplate "home.html" none).2 with
      | none =>
        rw [hx] at he; simp at he; subst he
        exact ⟨fun n => by simp, fun n d => by simp⟩
      | some err =>
        rw [hx] at he; simp at he
        rcases he with rfl | rfl <;> exact ⟨fun n => by simp, fun n d => by simp⟩
    · rw [hs]; rfl
    · intro hok
      rw [hs]
      exact (renderTemplate_ok env (St.start fs) "home" none hok rfl).1

theorem unrouted_path_goes_home_witness :
    (request "GET" "/unknown/path" "").method ≠ "CONNECT" ∧
    HasPrefix (request "GET" "/unknown/path" "").path "/" = true ∧
    HasPrefix (request "GET" "/unknown/path" "").path "/view/" = false ∧
    HasPrefix (request "GET" "/unknown/path" "").path "/edit/" = false ∧
    HasPrefix (request "GET" "/unknown/path" "").path "/save/" = false ∧
    HasPrefix (request "GET" "/unknown/path" "").path "/create/" = false ∧
    (serve demoEnv emptyFS (request "GET" "/unknown/path" "")).w.Status ≠ 404 ∧
    (serve demoEnv emptyFS (request "GET" "/unknown/path" "")).fs = emptyFS :=
  ⟨by decide, by decide, by decide, by decide, by decide, by decide,
    (unrouted_path_goes_home demoEnv emptyFS (request "GET" "/unknown/path" "") (by decide)
      (by decide) (by decide) (by decide) (by decide) (by decide)).1,
    (unrouted_path_goes_home demoEnv emptyFS (request "GET" "/unknown/path" "") (by decide)
      (by decide) (by decide) (by decide) (by decide) (by decide)).2.1⟩

end Gowiki
